import Mathlib

/-!
Verification development for the organization-context resolution and
token-exchange subsystem of the kernel-mcp-server repository.

The TypeScript sources are shallowly embedded below:
* the Redis-backed key-value mappings of `src/lib/redis.ts` (rich variant with
  `withReconnect`, from the repository's untitled source part) become pure
  operations on an association-list store, each returning the result, the new
  store, and a trace of store events;
* `resolveOrgId` of `src/lib/org-utils.ts` becomes `resolveOrgId`;
* the `POST /token` handler of `src/app/token/route.ts` becomes `tokenPOST`;
* the `GET /authorize` handler of `src/app/authorize/route.ts` becomes
  `authorizeGET`;
* the inline state codec of the authorize route (base64 of JSON) is embedded
  at the byte level, with an executable base64 codec and JSON
  printer/recognizer.

The HMAC-SHA256 digest used to derive store keys is left as an uninterpreted
function parameter `hash`; no claim depends on its internals.  Store and
upstream failures are injected through explicit flags mirroring the
`try`/`catch` boundaries of the handlers.
-/

namespace KernelMcp

/-! ## Generic string helpers (JS `String.prototype.includes`) -/

/-- Check that `need` is a prefix of `hay`, on character lists. -/
def listHasPre : List Char → List Char → Bool
  | _, [] => true
  | [], _ :: _ => false
  | a :: as, b :: bs => a == b && listHasPre as bs

/-- Check that `need` occurs contiguously inside `hay`. -/
def listHasSub (hay need : List Char) : Bool :=
  if listHasPre hay need then true
  else
    match hay with
    | [] => false
    | _ :: t => listHasSub t need

/-- Model of JavaScript `hay.includes(need)`. -/
def strIncludes (hay need : String) : Bool :=
  listHasSub hay.data need.data

/-- Model of JavaScript string truthiness for optional form/query fields:
`null`/`undefined` and the empty string are falsy. -/
def truthyStr : Option String → Option String
  | none => none
  | some s => if s = "" then none else some s

/-! ## Key-value store model

Redis is modelled as an association list from string keys to
(value, remaining TTL in seconds) pairs.  Expiry itself is not modelled as
the passage of time: an expired key is simply an absent key. -/

abbrev Store := List (String × String × Nat)

def storeGet : Store → String → Option String
  | [], _ => none
  | (k, v, _) :: rest, key => if k = key then some v else storeGet rest key

def storeTTL : Store → String → Option Nat
  | [], _ => none
  | (k, _, t) :: rest, key => if k = key then some t else storeTTL rest key

/-- Redis `SETEX key ttl value`. -/
def storeSetEx : Store → String → String → Nat → Store
  | [], key, v, t => [(key, v, t)]
  | (k, v0, t0) :: rest, key, v, t =>
    if k = key then (key, v, t) :: rest else (k, v0, t0) :: storeSetEx rest key v t

/-- Redis `EXPIRE key ttl`: reset the TTL of an existing key; a missing key is
left missing. -/
def storeExpire : Store → String → Nat → Store
  | [], _, _ => []
  | (k, v0, t0) :: rest, key, t =>
    if k = key then (key, v0, t) :: rest else (k, v0, t0) :: storeExpire rest key t

/-- Redis `DEL key`. -/
def storeDel : Store → String → Store
  | [], _ => []
  | (k, v0, t0) :: rest, key =>
    if k = key then storeDel rest key else (k, v0, t0) :: storeDel rest key

/-- Trace of externally visible effects performed by a handler. -/
inductive Ev where
  | storeGetEv (key : String)
  | storeSetEv (key : String) (value : String) (ttl : Nat)
  | storeExpireEv (key : String) (ttl : Nat)
  | storeDelEv (key : String)
  | upstreamCall
  deriving DecidableEq, Repr

/-! ## redis.ts operations

Keys are built exactly as in the source: `` `client:${clientId}` ``,
`` `refresh:${hashOpaqueToken(t)}` ``, `` `jwt:${hashJwt(t)}` ``.  The HMAC
digest is the uninterpreted parameter `hash`. -/

def clientKey (clientId : String) : String := "client:" ++ clientId

def refreshKey (hash : String → String) (refreshToken : String) : String :=
  "refresh:" ++ hash refreshToken

def jwtKey (hash : String → String) (jwt : String) : String :=
  "jwt:" ++ hash jwt

/-- `REFRESH_TOKEN_ORG_TTL_SECONDS` (default 30 days; `src/lib/const.ts`). -/
def REFRESH_TOKEN_ORG_TTL_SECONDS : Nat := 60 * 60 * 24 * 30

def setOrgIdForClientId (clientId orgId : String) (ttlSeconds : Nat)
    (store : Store) : Store × List Ev :=
  let key := clientKey clientId
  (storeSetEx store key orgId ttlSeconds, [Ev.storeSetEv key orgId ttlSeconds])

def getOrgIdForClientId (clientId : String) (store : Store) :
    Option String × List Ev :=
  let key := clientKey clientId
  (storeGet store key, [Ev.storeGetEv key])

def setOrgIdForJwt (hash : String → String) (jwt orgId : String)
    (ttlSeconds : Nat) (store : Store) : Store × List Ev :=
  let key := jwtKey hash jwt
  (storeSetEx store key orgId ttlSeconds, [Ev.storeSetEv key orgId ttlSeconds])

def setOrgIdForRefreshToken (hash : String → String) (refreshToken orgId : String)
    (ttlSeconds : Nat) (store : Store) : Store × List Ev :=
  let key := refreshKey hash refreshToken
  (storeSetEx store key orgId ttlSeconds, [Ev.storeSetEv key orgId ttlSeconds])

/-- Sliding read: `GET` the mapping, and when the value is truthy re-arm its
TTL with `EXPIRE` (src/lib/redis.ts `getOrgIdForRefreshTokenSliding`). -/
def getOrgIdForRefreshTokenSliding (hash : String → String)
    (refreshToken : String) (ttlSeconds : Nat) (store : Store) :
    Option String × Store × List Ev :=
  let key := refreshKey hash refreshToken
  match storeGet store key with
  | none => (none, store, [Ev.storeGetEv key])
  | some orgId =>
    if orgId = "" then (some orgId, store, [Ev.storeGetEv key])
    else (some orgId, storeExpire store key ttlSeconds,
          [Ev.storeGetEv key, Ev.storeExpireEv key ttlSeconds])

def deleteOrgIdForRefreshToken (hash : String → String) (refreshToken : String)
    (store : Store) : Store × List Ev :=
  let key := refreshKey hash refreshToken
  (storeDel store key, [Ev.storeDelEv key])

/-! ## withReconnect (untitled redis source part)

A store command is modelled as an attempt-indexed fallible operation; errors
carry their message string, on which `isTransientSocketError` does the same
substring tests as the source. -/

def isTransientSocketError (message : String) : Bool :=
  strIncludes message "Socket closed" ||
  strIncludes message "ECONNRESET" ||
  strIncludes message "EPIPE" ||
  strIncludes message "ENETUNREACH"

/-- `withReconnect` returns the final outcome together with the number of
times the wrapped operation was invoked. -/
def withReconnect {α : Type} (operation : Nat → Except String α) :
    Except String α × Nat :=
  match operation 0 with
  | .ok v => (.ok v, 1)
  | .error e =>
    if isTransientSocketError e then (operation 1, 2) else (.error e, 1)

/-! ## resolveOrgId (src/lib/org-utils.ts) -/

/-- An OAuth error response as produced by `createErrorResponse`. -/
structure ErrResp where
  error : String
  description : String
  status : Nat
  deriving DecidableEq, Repr

/-- Result shape of `resolveOrgId`: `{ orgId: string | null; error?: NextResponse }`. -/
structure OrgResult where
  orgId : Option String
  error : Option ErrResp
  deriving DecidableEq, Repr

/-- Embedding of `resolveOrgId`.  `sharedClientIds` is the configured
`SHARED_CLIENT_IDS` allow-list, `hash` the HMAC, and `storeOk` is false when a
store read throws (which the source catches and maps to `server_error`). -/
def resolveOrgId (sharedClientIds : List String) (hash : String → String)
    (storeOk : Bool) (grantType : Option String) (clientId : String)
    (directOrgId : Option String) (refreshToken : Option String)
    (store : Store) : OrgResult × Store × List Ev :=
  let isSharedClient := sharedClientIds.contains clientId
  if isSharedClient then
    match truthyStr directOrgId with
    | some orgId => (⟨some orgId, none⟩, store, [])
    | none =>
      match truthyStr refreshToken with
      | some rt =>
        if grantType = some "refresh_token" then
          if storeOk then
            let (orgIdFromRefresh, store', evs) :=
              getOrgIdForRefreshTokenSliding hash rt
                REFRESH_TOKEN_ORG_TTL_SECONDS store
            match truthyStr orgIdFromRefresh with
            | some o => (⟨some o, none⟩, store', evs)
            | none =>
              (⟨none, some ⟨"invalid_grant",
                "Missing organization context in refresh request. Please re-authorize.",
                400⟩⟩, store', evs)
          else
            (⟨none, some ⟨"server_error",
              "Failed to retrieve organization context for refresh token.",
              400⟩⟩, store, [])
        else
          (⟨none, some ⟨"invalid_grant",
            "Missing organization context in OAuth request body. Please re-authorize.",
            400⟩⟩, store, [])
      | none =>
        (⟨none, some ⟨"invalid_grant",
          "Missing organization context in OAuth request body. Please re-authorize.",
          400⟩⟩, store, [])
  else
    if grantType = some "authorization_code" then
      if storeOk then
        let (orgId, evs) := getOrgIdForClientId clientId store
        match truthyStr orgId with
        | some o => (⟨some o, none⟩, store, evs)
        | none =>
          (⟨none, some ⟨"invalid_grant",
            "Organization context expired for client: " ++ clientId ++
              ". Please re-authorize to select your organization.",
            400⟩⟩, store, evs)
      else
        (⟨none, some ⟨"server_error",
          "Failed to retrieve organization context for client: " ++ clientId,
          400⟩⟩, store, [])
    else if grantType = some "refresh_token" then
      match truthyStr refreshToken with
      | none =>
        (⟨none, some ⟨"invalid_request",
          "Missing required parameter: refresh_token", 400⟩⟩, store, [])
      | some rt =>
        if storeOk then
          let (orgId, store', evs) :=
            getOrgIdForRefreshTokenSliding hash rt
              REFRESH_TOKEN_ORG_TTL_SECONDS store
          match truthyStr orgId with
          | some o => (⟨some o, none⟩, store', evs)
          | none =>
            (⟨none, some ⟨"invalid_grant",
              "Organization context expired for this refresh token. Please re-authorize.",
              400⟩⟩, store', evs)
        else
          (⟨none, some ⟨"server_error",
            "Failed to retrieve organization context for refresh token.",
            400⟩⟩, store, [])
    else
      (⟨none, some ⟨"unsupported_grant_type",
        "Grant type is not supported", 400⟩⟩, store, [])

/-! ## State codec: bytes, base64, JSON

The authorize route encodes `{csrf, org_id}` with
`Buffer.from(JSON.stringify(stateData)).toString("base64")` and decodes the
incoming `state` with `JSON.parse(Buffer.from(state, "base64").toString())`.
The codec is embedded at the byte level: a JS string is a list of bytes.
Node's base64 decoder is lenient (characters outside the alphabet, including
padding, are skipped), which the embedding reproduces. -/

abbrev Byte := Fin 256

abbrev ByteStr := List Byte

def byt (n : Nat) : Byte := ⟨n % 256, Nat.mod_lt _ (by omega)⟩

def six (n : Nat) : Fin 64 := ⟨n % 64, Nat.mod_lt _ (by omega)⟩

/-- The standard base64 alphabet, as a value-to-byte map. -/
def encChar (v : Fin 64) : Byte :=
  if v.val < 26 then byt (65 + v.val)
  else if v.val < 52 then byt (97 + (v.val - 26))
  else if v.val < 62 then byt (48 + (v.val - 52))
  else if v.val = 62 then byt 43
  else byt 47

/-- Inverse alphabet lookup; bytes outside the alphabet map to `none`. -/
def decChar (c : Byte) : Option (Fin 64) :=
  if 65 ≤ c.val ∧ c.val ≤ 90 then some (six (c.val - 65))
  else if 97 ≤ c.val ∧ c.val ≤ 122 then some (six (c.val - 97 + 26))
  else if 48 ≤ c.val ∧ c.val ≤ 57 then some (six (c.val - 48 + 52))
  else if c.val = 43 then some (six 62)
  else if c.val = 47 then some (six 63)
  else none

/-- Base64 encoding with padding (`=` is byte 61). -/
def b64Encode : ByteStr → ByteStr
  | [] => []
  | [a] =>
    [encChar (six (a.val / 4)), encChar (six ((a.val % 4) * 16)), byt 61, byt 61]
  | [a, b] =>
    [encChar (six (a.val / 4)), encChar (six ((a.val % 4) * 16 + b.val / 16)),
     encChar (six ((b.val % 16) * 4)), byt 61]
  | a :: b :: c :: rest =>
    encChar (six (a.val / 4)) :: encChar (six ((a.val % 4) * 16 + b.val / 16)) ::
    encChar (six ((b.val % 16) * 4 + c.val / 64)) :: encChar (six (c.val % 64)) ::
    b64Encode rest

/-- Regroup 6-bit values into bytes; a trailing lone value is dropped, as in
Node's lenient decoder. -/
def b64Regroup : List (Fin 64) → ByteStr
  | [] => []
  | [_] => []
  | [a, b] => [byt (a.val * 4 + b.val / 16)]
  | [a, b, c] => [byt (a.val * 4 + b.val / 16), byt ((b.val % 16) * 16 + c.val / 4)]
  | a :: b :: c :: d :: rest =>
    byt (a.val * 4 + b.val / 16) :: byt ((b.val % 16) * 16 + c.val / 4) ::
    byt ((c.val % 4) * 64 + d.val) :: b64Regroup rest

/-- Lenient base64 decoding in the style of `Buffer.from(s, "base64")`. -/
def b64Decode (s : ByteStr) : ByteStr :=
  b64Regroup (s.filterMap decChar)

/-! ### JSON values, printer and parser -/

/-- JSON values.  Numbers are carried as their source lexeme: no claim
depends on numeric semantics beyond zero-ness. -/
inductive Json where
  | null
  | bool (b : Bool)
  | num (lexeme : ByteStr)
  | str (s : ByteStr)
  | arr (elems : List Json)
  | obj (fields : List (ByteStr × Json))

/-- Lowercase hex digit for a value below 16. -/
def hexDigit (n : Nat) : Byte :=
  if n < 10 then byt (48 + n) else byt (87 + n)

/-- `JSON.stringify` string escaping: `"` and `\` get a backslash, the named
control escapes are used where they exist, other control bytes become
`\u00XX`. -/
def escapeByte (b : Byte) : ByteStr :=
  if b.val = 34 then [byt 92, byt 34]
  else if b.val = 92 then [byt 92, byt 92]
  else if b.val = 8 then [byt 92, byt 98]
  else if b.val = 9 then [byt 92, byt 116]
  else if b.val = 10 then [byt 92, byt 110]
  else if b.val = 12 then [byt 92, byt 102]
  else if b.val = 13 then [byt 92, byt 114]
  else if b.val < 32 then
    [byt 92, byt 117, byt 48, byt 48, hexDigit (b.val / 16), hexDigit (b.val % 16)]
  else [b]

def escapeBytes (s : ByteStr) : ByteStr := s.flatMap escapeByte

/-- Print a JSON string literal, quotes included. -/
def printStr (s : ByteStr) : ByteStr := byt 34 :: escapeBytes s ++ [byt 34]

mutual

/-- `JSON.stringify` (no spacing, insertion-ordered object fields). -/
def printJson : Json → ByteStr
  | .null => [byt 110, byt 117, byt 108, byt 108]
  | .bool true => [byt 116, byt 114, byt 117, byt 101]
  | .bool false => [byt 102, byt 97, byt 108, byt 115, byt 101]
  | .num lexeme => lexeme
  | .str s => printStr s
  | .arr elems => byt 91 :: printJsonList elems ++ [byt 93]
  | .obj fields => byt 123 :: printJsonFields fields ++ [byt 125]

def printJsonList : List Json → ByteStr
  | [] => []
  | [x] => printJson x
  | x :: y :: rest => printJson x ++ byt 44 :: printJsonList (y :: rest)

def printJsonFields : List (ByteStr × Json) → ByteStr
  | [] => []
  | [(k, v)] => printStr k ++ byt 58 :: printJson v
  | (k, v) :: f :: rest =>
    printStr k ++ byt 58 :: printJson v ++ byt 44 :: printJsonFields (f :: rest)

end

def isWsByte (b : Byte) : Bool :=
  b.val = 32 || b.val = 9 || b.val = 10 || b.val = 13

def skipWs : ByteStr → ByteStr
  | [] => []
  | b :: rest => if isWsByte b then skipWs rest else b :: rest

/-- Value of an ASCII hex digit. -/
def hexVal (b : Byte) : Option Nat :=
  if 48 ≤ b.val ∧ b.val ≤ 57 then some (b.val - 48)
  else if 97 ≤ b.val ∧ b.val ≤ 102 then some (b.val - 97 + 10)
  else if 65 ≤ b.val ∧ b.val ≤ 70 then some (b.val - 65 + 10)
  else none

/-- Fueled lexer for a JSON string body after the opening quote: returns the
unescaped content and the remainder after the closing quote.  The fuel is a
termination device only; every recursive call consumes at least one input
byte, so an input-length budget never runs out (see `lexStr`). -/
def lexStrF : Nat → ByteStr → Option (ByteStr × ByteStr)
  | 0, _ => none
  | _ + 1, [] => none
  | f + 1, b :: rest =>
    if b.val = 34 then some ([], rest)
    else if b.val = 92 then
      match rest with
      | [] => none
      | e :: rest2 =>
        if e.val = 34 then (lexStrF f rest2).map (fun r => (byt 34 :: r.1, r.2))
        else if e.val = 92 then (lexStrF f rest2).map (fun r => (byt 92 :: r.1, r.2))
        else if e.val = 47 then (lexStrF f rest2).map (fun r => (byt 47 :: r.1, r.2))
        else if e.val = 98 then (lexStrF f rest2).map (fun r => (byt 8 :: r.1, r.2))
        else if e.val = 102 then (lexStrF f rest2).map (fun r => (byt 12 :: r.1, r.2))
        else if e.val = 110 then (lexStrF f rest2).map (fun r => (byt 10 :: r.1, r.2))
        else if e.val = 114 then (lexStrF f rest2).map (fun r => (byt 13 :: r.1, r.2))
        else if e.val = 116 then (lexStrF f rest2).map (fun r => (byt 9 :: r.1, r.2))
        else if e.val = 117 then
          match rest2 with
          | h1 :: h2 :: h3 :: h4 :: rest6 =>
            match hexVal h1, hexVal h2, hexVal h3, hexVal h4 with
            | some v1, some v2, some v3, some v4 =>
              (lexStrF f rest6).map
                (fun r => (byt (v1 * 4096 + v2 * 256 + v3 * 16 + v4) :: r.1, r.2))
            | _, _, _, _ => none
          | _ => none
        else none
    else if b.val < 32 then none
    else (lexStrF f rest).map (fun r => (b :: r.1, r.2))

/-- Lex a JSON string body, with an input-length fuel budget. -/
def lexStr (l : ByteStr) : Option (ByteStr × ByteStr) :=
  lexStrF (l.length + 1) l

def isDigitByte (b : Byte) : Bool := 48 ≤ b.val ∧ b.val ≤ 57

def lexDigits : ByteStr → ByteStr × ByteStr
  | [] => ([], [])
  | b :: rest =>
    if isDigitByte b then
      let (ds, r) := lexDigits rest
      (b :: ds, r)
    else ([], b :: rest)

/-- Lex the integer part of a JSON number after an optional sign:
`0` or a nonzero digit followed by digits. -/
def lexInt : ByteStr → Option (ByteStr × ByteStr)
  | [] => none
  | b :: rest =>
    if b.val = 48 then some ([b], rest)
    else if isDigitByte b then
      let (ds, r) := lexDigits rest
      some (b :: ds, r)
    else none

def lexFrac : ByteStr → Option (ByteStr × ByteStr)
  | b :: rest =>
    if b.val = 46 then
      match lexDigits rest with
      | ([], _) => none
      | (ds, r) => some (b :: ds, r)
    else some ([], b :: rest)
  | [] => some ([], [])

def lexExp : ByteStr → Option (ByteStr × ByteStr)
  | b :: rest =>
    if b.val = 101 ∨ b.val = 69 then
      match rest with
      | s :: rest2 =>
        if s.val = 43 ∨ s.val = 45 then
          match lexDigits rest2 with
          | ([], _) => none
          | (ds, r) => some (b :: s :: ds, r)
        else
          match lexDigits rest with
          | ([], _) => none
          | (ds, r) => some (b :: ds, r)
      | [] => none
    else some ([], b :: rest)
  | [] => some ([], [])

/-- Lex a JSON number lexeme (sign, integer part, fraction, exponent). -/
def lexNum (s : ByteStr) : Option (ByteStr × ByteStr) :=
  match s with
  | b :: rest =>
    if b.val = 45 then
      match lexInt rest with
      | none => none
      | some (i, r1) =>
        match lexFrac r1 with
        | none => none
        | some (f, r2) =>
          match lexExp r2 with
          | none => none
          | some (e, r3) => some (b :: i ++ f ++ e, r3)
    else
      match lexInt s with
      | none => none
      | some (i, r1) =>
        match lexFrac r1 with
        | none => none
        | some (f, r2) =>
          match lexExp r2 with
          | none => none
          | some (e, r3) => some (i ++ f ++ e, r3)
  | [] => none

mutual

/-- Fueled JSON value parser; leading whitespace is skipped. -/
def parseVal : Nat → ByteStr → Option (Json × ByteStr)
  | 0, _ => none
  | fuel + 1, input =>
    match skipWs input with
    | [] => none
    | c :: rest =>
      if c.val = 34 then (lexStr rest).map (fun r => (Json.str r.1, r.2))
      else if c.val = 123 then parseObjBody fuel rest
      else if c.val = 91 then parseArrBody fuel rest
      else
        match c :: rest with
        | t :: r :: u :: e :: tail =>
          if t.val = 116 ∧ r.val = 114 ∧ u.val = 117 ∧ e.val = 101 then
            some (Json.bool true, tail)
          else
            match c :: rest with
            | f :: a :: l :: s :: e2 :: tail2 =>
              if f.val = 102 ∧ a.val = 97 ∧ l.val = 108 ∧ s.val = 115 ∧ e2.val = 101 then
                some (Json.bool false, tail2)
              else if f.val = 110 ∧ a.val = 117 ∧ l.val = 108 ∧ s.val = 108 then
                some (Json.null, e2 :: tail2)
              else (lexNum (c :: rest)).map (fun r2 => (Json.num r2.1, r2.2))
            | n :: u2 :: l :: l2 :: [] =>
              if n.val = 110 ∧ u2.val = 117 ∧ l.val = 108 ∧ l2.val = 108 then
                some (Json.null, [])
              else (lexNum (c :: rest)).map (fun r2 => (Json.num r2.1, r2.2))
            | _ => (lexNum (c :: rest)).map (fun r2 => (Json.num r2.1, r2.2))
        | _ => (lexNum (c :: rest)).map (fun r2 => (Json.num r2.1, r2.2))

/-- Parse an object body after the opening brace. -/
def parseObjBody : Nat → ByteStr → Option (Json × ByteStr)
  | 0, _ => none
  | fuel + 1, input =>
    match skipWs input with
    | [] => none
    | c :: rest =>
      if c.val = 125 then some (Json.obj [], rest)
      else parseMembers fuel (c :: rest)

/-- Parse object members (`"key": value` separated by commas), up to and
including the closing brace. -/
def parseMembers : Nat → ByteStr → Option (Json × ByteStr)
  | 0, _ => none
  | fuel + 1, input =>
    match skipWs input with
    | [] => none
    | c :: rest =>
      if c.val = 34 then
        match lexStr rest with
        | none => none
        | some (key, r1) =>
          match skipWs r1 with
          | colon :: r2 =>
            if colon.val = 58 then
              match parseVal fuel r2 with
              | none => none
              | some (v, r3) =>
                match skipWs r3 with
                | sep :: r4 =>
                  if sep.val = 44 then
                    match parseMembers fuel r4 with
                    | some (Json.obj fields, r5) =>
                      some (Json.obj ((key, v) :: fields), r5)
                    | _ => none
                  else if sep.val = 125 then some (Json.obj [(key, v)], r4)
                  else none
                | [] => none
            else none
          | [] => none
      else none

/-- Parse array elements up to and including the closing bracket. -/
def parseArrBody : Nat → ByteStr → Option (Json × ByteStr)
  | 0, _ => none
  | fuel + 1, input =>
    match skipWs input with
    | [] => none
    | c :: rest =>
      if c.val = 93 then some (Json.arr [], rest)
      else
        match parseVal fuel (c :: rest) with
        | none => none
        | some (v, r1) =>
          match skipWs r1 with
          | sep :: r2 =>
            if sep.val = 44 then
              match parseArrBody fuel r2 with
              | some (Json.arr elems, r3) => some (Json.arr (v :: elems), r3)
              | _ => none
            else if sep.val = 93 then some (Json.arr [v], r2)
            else none
          | [] => none

end

/-- `JSON.parse`: parse one value and require only whitespace after it. -/
def jsonParse (s : ByteStr) : Option Json :=
  match parseVal (s.length + 1) s with
  | some (v, rest) => if skipWs rest = [] then some v else none
  | none => none

/-- Property access on a parsed object (`parsedState.csrf`); on duplicate
keys `JSON.parse` keeps the last occurrence. -/
def getField (j : Json) (key : ByteStr) : Option Json :=
  match j with
  | .obj fields => ((fields.reverse).find? (fun p => p.1 = key)).map (·.2)
  | _ => none

/-- Whether the mantissa of a number lexeme is all zeros. -/
def numIsZero (lexeme : ByteStr) : Bool :=
  (lexeme.takeWhile (fun b => ¬(b.val = 101 ∨ b.val = 69))).all
    (fun b => b.val = 45 ∨ b.val = 48 ∨ b.val = 46)

/-- JavaScript truthiness of a parsed JSON value. -/
def jsTruthy : Json → Bool
  | .null => false
  | .bool b => b
  | .num lexeme => ¬numIsZero lexeme
  | .str s => ¬s.isEmpty
  | .arr _ => true
  | .obj _ => true

/-- Bytes of `"csrf"`. -/
def csrfKey : ByteStr := [byt 99, byt 115, byt 114, byt 102]

/-- Bytes of `"org_id"`. -/
def orgIdKey : ByteStr := [byt 111, byt 114, byt 103, byt 95, byt 105, byt 100]

/-- CSRF extraction of the authorize route: base64-decode and JSON-parse the
incoming state; when a truthy `csrf` field exists use it, otherwise the whole
raw input is the CSRF value. -/
def decodeCsrf (originalState : ByteStr) : Json :=
  match jsonParse (b64Decode originalState) with
  | some parsed =>
    match getField parsed csrfKey with
    | some v => if jsTruthy v then v else Json.str originalState
    | none => Json.str originalState
  | none => Json.str originalState

/-- Encoding of the authorize route:
`Buffer.from(JSON.stringify({csrf, org_id})).toString("base64")`. -/
def encodeStateJson (csrfToken : Json) (orgId : ByteStr) : ByteStr :=
  b64Encode (printJson (Json.obj [(csrfKey, csrfToken), (orgIdKey, Json.str orgId)]))

/-- The StateCodec encoder on a pair of strings. -/
def encodeState (csrf orgId : ByteStr) : ByteStr :=
  encodeStateJson (Json.str csrf) orgId

/-! ### Bridging between handler-level `String` and codec-level bytes -/

def strToBytes (s : String) : ByteStr := s.data.map (fun c => byt c.toNat)

def bytesToString (bs : ByteStr) : String :=
  String.mk (bs.map (fun b => Char.ofNat b.val))

/-! ## POST /token (src/app/token/route.ts) -/

/-- The relevant fields of the form-encoded token request body, each `none`
when absent (`body.get` returns `null`). -/
structure TokenRequest where
  contentType : Option String
  grantType : Option String
  clientId : Option String
  orgIdParam : Option String
  refreshToken : Option String

/-- The JSON body of a 2xx upstream (Clerk) token response. -/
structure ClerkTokens where
  accessToken : String
  expiresIn : Nat
  refreshToken : Option String
  tokenType : String
  idToken : Option String

/-- Outcome of the single upstream `fetch`; `ok` is `response.ok`. -/
structure UpstreamResult where
  ok : Bool
  tokens : ClerkTokens

/-- Failure injection for the store commands issued by the token handler,
one flag per `try`/`catch`-guarded call site.  `readFails` covers the reads
performed inside `resolveOrgId`. -/
structure StoreFaults where
  readFails : Bool
  delRefreshFails : Bool
  setRefreshFails : Bool
  setJwtFails : Bool

def noFaults : StoreFaults := ⟨false, false, false, false⟩

/-- The handler's HTTP response, success and error cases merged. -/
structure TokenResponse where
  status : Nat
  error : Option String
  accessToken : Option String
  expiresIn : Option Nat
  refreshTokenOut : Option String
  deriving DecidableEq, Repr

def tokenErr (error : String) (status : Nat) : TokenResponse :=
  ⟨status, some error, none, none, none⟩

def errToTokenResponse (e : ErrResp) : TokenResponse :=
  ⟨e.status, some e.error, none, none, none⟩

/-- Step 8 of the token handler: the `try` block persisting refresh-token
mappings.  `none` models a thrown store error reaching the surrounding
`catch` (mapped to `server_error` by the caller); a failed delete of the old
mapping is caught by the inner `catch` and swallowed. -/
def tokenStep8 (hash : String → String) (faults : StoreFaults)
    (grantType : Option String) (rtBody : Option String) (tok : ClerkTokens)
    (orgId : String) (store : Store) : Option (Store × List Ev) :=
  if grantType = some "authorization_code" then
    match truthyStr tok.refreshToken with
    | some newRt =>
      if faults.setRefreshFails then none
      else some (setOrgIdForRefreshToken hash newRt orgId
        REFRESH_TOKEN_ORG_TTL_SECONDS store)
    | none => some (store, [])
  else if grantType = some "refresh_token" then
    match truthyStr tok.refreshToken with
    | some newRt =>
      match truthyStr rtBody with
      | some oldRt =>
        let (store1, evs1) :=
          if faults.delRefreshFails then (store, ([] : List Ev))
          else deleteOrgIdForRefreshToken hash oldRt store
        if faults.setRefreshFails then none
        else
          let (store2, evs2) := setOrgIdForRefreshToken hash newRt orgId
            REFRESH_TOKEN_ORG_TTL_SECONDS store1
          some (store2, evs1 ++ evs2)
      | none =>
        if faults.setRefreshFails then none
        else some (setOrgIdForRefreshToken hash newRt orgId
          REFRESH_TOKEN_ORG_TTL_SECONDS store)
    | none => some (store, [])
  else some (store, [])

/-- Step 9 of the token handler: persist the `jwt:` mapping with the token's
own lifetime; `none` models a thrown store error. -/
def tokenStep9 (hash : String → String) (faults : StoreFaults)
    (finalJwt orgId : String) (expiresIn : Nat) (store : Store) :
    Option (Store × List Ev) :=
  if faults.setJwtFails then none
  else some (setOrgIdForJwt hash finalJwt orgId expiresIn store)

/-- Steps 7-10 of the token handler, after the upstream exchange succeeded
and the organization context `orgId` was resolved and validated. -/
def tokenFinish (hash : String → String) (faults : StoreFaults)
    (grantType : Option String) (rtBody : Option String)
    (tok : ClerkTokens) (orgId : String) (store : Store) :
    TokenResponse × Store × List Ev :=
  match
    (if grantType = some "authorization_code" then
      match tok.idToken with
      | none => Sum.inl (tokenErr "invalid_grant" 400)
      | some jwt => Sum.inr (jwt, tok.expiresIn)
    else if grantType = some "refresh_token" then
      match tok.idToken with
      | none => Sum.inl (tokenErr "invalid_grant" 400)
      | some jwt => Sum.inr (jwt, tok.expiresIn)
    else Sum.inl (tokenErr "unsupported_grant_type" 400) :
      Sum TokenResponse (String × Nat))
  with
  | Sum.inl resp => (resp, store, [])
  | Sum.inr (finalJwt, expiresIn) =>
    match tokenStep8 hash faults grantType rtBody tok orgId store with
    | none => (tokenErr "server_error" 500, store, [])
    | some (store8, evs8) =>
      match tokenStep9 hash faults finalJwt orgId expiresIn store8 with
      | none => (tokenErr "server_error" 500, store8, evs8)
      | some (store9, evs9) =>
        (⟨200, none, some finalJwt, some expiresIn, tok.refreshToken⟩,
         store9, evs8 ++ evs9)

/-- The pre-upstream part of the token handler for `refresh_token` grants:
require the `refresh_token` field and resolve the org before calling Clerk.
`Sum.inl` is an early error return; `Sum.inr` carries the resolved org (for
refresh grants), the presented refresh token, the store, and the trace. -/
def tokenPreResolve (sharedClientIds : List String) (hash : String → String)
    (faults : StoreFaults) (grantType : Option String) (clientId : String)
    (directOrgId refreshToken : Option String) (store : Store) :
    Sum (TokenResponse × Store × List Ev)
        (Option String × Option String × Store × List Ev) :=
  if grantType = some "refresh_token" then
    match truthyStr refreshToken with
    | none => Sum.inl (tokenErr "invalid_request" 400, store, [])
    | some rt =>
      match resolveOrgId sharedClientIds hash (!faults.readFails) grantType
        clientId directOrgId (some rt) store with
      | (res, store1, evs1) =>
        match res.error with
        | some e => Sum.inl (errToTokenResponse e, store1, evs1)
        | none =>
          match truthyStr res.orgId with
          | none => Sum.inl (tokenErr "invalid_grant" 400, store1, evs1)
          | some o => Sum.inr (some o, some rt, store1, evs1)
  else Sum.inr (none, none, store, [])

/-- Step 5 of the token handler: resolve the org for `authorization_code`
flows (or confirm the pre-resolved org for refresh flows). -/
def tokenResolvePost (sharedClientIds : List String) (hash : String → String)
    (faults : StoreFaults) (grantType : Option String) (clientId : String)
    (directOrgId : Option String) (resolvedOrgId : Option String)
    (store : Store) :
    Sum (TokenResponse × Store × List Ev) (Option String × Store × List Ev) :=
  match resolvedOrgId with
  | some o => Sum.inr (some o, store, [])
  | none =>
    match resolveOrgId sharedClientIds hash (!faults.readFails) grantType
      clientId directOrgId none store with
    | (res, store2, evs2) =>
      match res.error with
      | some e => Sum.inl (errToTokenResponse e, store2, evs2)
      | none => Sum.inr (res.orgId, store2, evs2)

/-- Embedding of the `POST /token` handler.  Returns the response, the final
store, and the trace of store and upstream effects in program order. -/
def tokenPOST (sharedClientIds : List String) (hash : String → String)
    (clerkDomain : Option String) (faults : StoreFaults)
    (req : TokenRequest) (upstream : UpstreamResult) (store : Store) :
    TokenResponse × Store × List Ev :=
  match req.contentType with
  | none => (tokenErr "invalid_request" 400, store, [])
  | some ct =>
    if ¬ strIncludes ct "application/x-www-form-urlencoded" then
      (tokenErr "invalid_request" 400, store, [])
    else
      match clerkDomain with
      | none => (tokenErr "server_error" 500, store, [])
      | some _ =>
        match truthyStr req.clientId with
        | none => (tokenErr "invalid_request" 400, store, [])
        | some clientId =>
          let directOrgId := truthyStr req.orgIdParam
          -- refresh_token flow: resolve org before calling Clerk
          match tokenPreResolve sharedClientIds hash faults req.grantType
            clientId directOrgId req.refreshToken store with
          | Sum.inl out => out
          | Sum.inr (resolvedOrgId, rtBody, store1, evs1) =>
            -- step 4: upstream exchange
            if ¬ upstream.ok then
              (tokenErr "invalid_grant" 400, store1, evs1 ++ [Ev.upstreamCall])
            else
              -- step 5: resolve org for authorization_code flows
              match tokenResolvePost sharedClientIds hash faults req.grantType
                clientId directOrgId resolvedOrgId store1 with
              | Sum.inl (resp, store2, evs2) =>
                (resp, store2, evs1 ++ [Ev.upstreamCall] ++ evs2)
              | Sum.inr (orgIdOpt, store2, evs2) =>
                -- step 6: validate organization context
                match truthyStr orgIdOpt with
                | none =>
                  (tokenErr "invalid_grant" 400, store2,
                   evs1 ++ [Ev.upstreamCall] ++ evs2)
                | some orgId =>
                  let (resp, store3, evs3) := tokenFinish hash faults
                    req.grantType rtBody upstream.tokens orgId store2
                  (resp, store3, evs1 ++ [Ev.upstreamCall] ++ evs2 ++ evs3)

/-! ## GET /authorize (src/app/authorize/route.ts) -/

structure AuthRequest where
  clientId : Option String
  orgId : Option String
  state : Option String

/-- Terminal outcome of the authorize handler. -/
inductive AuthOutcome where
  | errorResp (error : String) (status : Nat)
  | redirectSelectOrg
  | redirectClerk (stateParam : Option String)
  deriving DecidableEq, Repr

/-- CSRF value used when re-encoding state for a shared client:
`let csrfToken = originalState || ""`, refined by the base64+JSON probe when
the original state is truthy. -/
def csrfFromState (originalState : Option String) : Json :=
  match truthyStr originalState with
  | none => Json.str []
  | some s => decodeCsrf (strToBytes s)

/-- Embedding of the `GET /authorize` handler.  `storeOk` is false when the
ephemeral-client store write throws. -/
def authorizeGET (sharedClientIds : List String) (clerkDomain : Option String)
    (storeOk : Bool) (req : AuthRequest) (store : Store) :
    AuthOutcome × Store × List Ev :=
  match truthyStr req.clientId with
  | none => (.errorResp "invalid_request" 400, store, [])
  | some clientId =>
    match truthyStr req.orgId with
    | none => (.redirectSelectOrg, store, [])
    | some selectedOrgId =>
      match clerkDomain with
      | none => (.errorResp "server_error" 500, store, [])
      | some _ =>
        -- step 5: persist org context for ephemeral clients only
        if sharedClientIds.contains clientId then
          -- step 6: re-encode state with org context for shared clients
          let modifiedState := bytesToString
            (encodeStateJson (csrfFromState req.state) (strToBytes selectedOrgId))
          (.redirectClerk (truthyStr (some modifiedState)), store, [])
        else
          if ¬ storeOk then (.errorResp "server_error" 500, store, [])
          else
            let (store', evs) :=
              setOrgIdForClientId clientId selectedOrgId (60 * 60) store
            (.redirectClerk (truthyStr req.state), store', evs)

/-! ## Basic store lemmas -/

theorem storeGet_setEx_self (s : Store) (k v : String) (t : Nat) :
    storeGet (storeSetEx s k v t) k = some v := by
  induction s with
  | nil => simp [storeSetEx, storeGet]
  | cons e rest ih =>
    obtain ⟨k0, v0, t0⟩ := e
    by_cases h : k0 = k <;> simp [storeSetEx, storeGet, h, ih]

theorem storeGet_setEx_ne (s : Store) (k v k' : String) (t : Nat)
    (h : k' ≠ k) : storeGet (storeSetEx s k v t) k' = storeGet s k' := by
  induction s with
  | nil => simp [storeSetEx, storeGet, Ne.symm h]
  | cons e rest ih =>
    obtain ⟨k0, v0, t0⟩ := e
    by_cases h0 : k0 = k
    · simp [storeSetEx, storeGet, h0, Ne.symm h]
    · simp [storeSetEx, storeGet, h0, ih]

theorem storeGet_expire (s : Store) (k k' : String) (t : Nat) :
    storeGet (storeExpire s k t) k' = storeGet s k' := by
  induction s with
  | nil => simp [storeExpire]
  | cons e rest ih =>
    obtain ⟨k0, v0, t0⟩ := e
    by_cases h0 : k0 = k
    · simp [storeExpire, storeGet, h0, ih]
    · simp [storeExpire, storeGet, h0, ih]

theorem storeTTL_expire_self (s : Store) (k : String) (t : Nat)
    (h : storeGet s k ≠ none) : storeTTL (storeExpire s k t) k = some t := by
  induction s with
  | nil => simp [storeGet] at h
  | cons e rest ih =>
    obtain ⟨k0, v0, t0⟩ := e
    by_cases h0 : k0 = k
    · simp [storeExpire, storeTTL, h0]
    · simp [storeGet, h0] at h
      simp [storeExpire, storeTTL, h0, ih h]

theorem storeGet_del_self (s : Store) (k : String) :
    storeGet (storeDel s k) k = none := by
  induction s with
  | nil => simp [storeDel, storeGet]
  | cons e rest ih =>
    obtain ⟨k0, v0, t0⟩ := e
    by_cases h0 : k0 = k <;> simp [storeDel, storeGet, h0, ih]

theorem storeGet_del_ne (s : Store) (k k' : String) (h : k' ≠ k) :
    storeGet (storeDel s k) k' = storeGet s k' := by
  induction s with
  | nil => simp [storeDel, storeGet]
  | cons e rest ih =>
    obtain ⟨k0, v0, t0⟩ := e
    by_cases h0 : k0 = k
    · simp [storeDel, storeGet, h0, Ne.symm h, ih]
    · simp [storeDel, storeGet, h0, ih]

/-! ## Key namespace disjointness -/

theorem clientKey_ne_refreshKey (c : String) (hash : String → String)
    (rt : String) : clientKey c ≠ refreshKey hash rt := by
  intro h
  have h2 := congrArg String.data h
  simp [clientKey, refreshKey, String.data_append] at h2

theorem clientKey_ne_jwtKey (c : String) (hash : String → String)
    (j : String) : clientKey c ≠ jwtKey hash j := by
  intro h
  have h2 := congrArg String.data h
  simp [clientKey, jwtKey, String.data_append] at h2

theorem jwtKey_ne_refreshKey (hash hash' : String → String) (j rt : String) :
    jwtKey hash j ≠ refreshKey hash' rt := by
  intro h
  have h2 := congrArg String.data h
  simp [jwtKey, refreshKey, String.data_append] at h2

/-! ## Claim C7: sliding reads of refresh mappings -/

/-- Claim C7, counterexample: a read of an existing `refresh:` mapping via the
sliding read operation does not always reset the TTL — when the stored org_id
is the empty string (falsy in JS), the value is returned but `EXPIRE` is
skipped, so the remaining TTL stays at 5 instead of the full window. -/
theorem claim7_counterexample :
    (getOrgIdForRefreshTokenSliding (fun s => s) "R"
      REFRESH_TOKEN_ORG_TTL_SECONDS [("refresh:R", "", 5)]).1 = some "" ∧
    storeTTL (getOrgIdForRefreshTokenSliding (fun s => s) "R"
      REFRESH_TOKEN_ORG_TTL_SECONDS [("refresh:R", "", 5)]).2.1 "refresh:R" =
      some 5 ∧
    (5 : Nat) ≠ REFRESH_TOKEN_ORG_TTL_SECONDS := by
  refine ⟨rfl, rfl, by decide⟩

/-- Claim C7 (amended): for every read of an existing `refresh:` mapping whose
stored org_id is non-empty, the sliding read returns the stored org_id, resets
the mapping's TTL to the full requested window, and changes no stored value;
a read of an absent mapping returns null and leaves the store unchanged. -/
theorem claim7_sliding_read (hash : String → String) (rt : String) (ttl : Nat)
    (store : Store) :
    (∀ v, storeGet store (refreshKey hash rt) = some v → v ≠ "" →
      (getOrgIdForRefreshTokenSliding hash rt ttl store).1 = some v ∧
      storeTTL (getOrgIdForRefreshTokenSliding hash rt ttl store).2.1
        (refreshKey hash rt) = some ttl ∧
      ∀ k, storeGet (getOrgIdForRefreshTokenSliding hash rt ttl store).2.1 k =
        storeGet store k) ∧
    (storeGet store (refreshKey hash rt) = none →
      getOrgIdForRefreshTokenSliding hash rt ttl store =
        (none, store, [Ev.storeGetEv (refreshKey hash rt)])) := by
  constructor
  · intro v hv hne
    refine ⟨?_, ?_, ?_⟩
    · simp [getOrgIdForRefreshTokenSliding, hv, hne]
    · simp only [getOrgIdForRefreshTokenSliding, hv, if_neg hne]
      exact storeTTL_expire_self _ _ _ (by simp [hv])
    · intro k
      simp [getOrgIdForRefreshTokenSliding, hv, hne, storeGet_expire]
  · intro hnone
    simp [getOrgIdForRefreshTokenSliding, hnone]

/-- Witness for claim C7 at a concrete store. -/
theorem claim7_witness :
    (getOrgIdForRefreshTokenSliding (fun s => s) "R1" 2592000
      [("refresh:R1", "orgA", 7)]).1 = some "orgA" ∧
    storeTTL (getOrgIdForRefreshTokenSliding (fun s => s) "R1" 2592000
      [("refresh:R1", "orgA", 7)]).2.1 (refreshKey (fun s => s) "R1") =
      some 2592000 := by
  have h := (claim7_sliding_read (fun s => s) "R1" 2592000
    [("refresh:R1", "orgA", 7)]).1 "orgA" (by decide) (by decide)
  exact ⟨h.1, h.2.1⟩

/-! ## Claim C8: retry policy of the store wrapper -/

/-- Claim C8: a store command failing with a transient socket error is retried
exactly once (the wrapper invokes the operation a second time and returns that
second outcome); any other failure propagates with no retry; a first-attempt
success involves a single invocation. -/
theorem claim8_retry_policy {α : Type} (op : Nat → Except String α) :
    (∀ e, op 0 = .error e → isTransientSocketError e = true →
      withReconnect op = (op 1, 2)) ∧
    (∀ e, op 0 = .error e → isTransientSocketError e = false →
      withReconnect op = (.error e, 1)) ∧
    (∀ v, op 0 = .ok v → withReconnect op = (.ok v, 1)) := by
  refine ⟨?_, ?_, ?_⟩
  · intro e h1 h2
    simp [withReconnect, h1, h2]
  · intro e h1 h2
    simp [withReconnect, h1, h2]
  · intro v h1
    simp [withReconnect, h1]

/-- Witness for claim C8: a first attempt failing with `ECONNRESET` is
retried once and the second attempt's result is returned. -/
theorem claim8_witness :
    withReconnect
      (fun n => if n = 0 then Except.error "read ECONNRESET" else Except.ok 7) =
      (Except.ok 7, 2) := by
  have h := (claim8_retry_policy
    (fun n => if n = 0 then Except.error "read ECONNRESET" else Except.ok 7)).1
    "read ECONNRESET" rfl (by decide)
  simpa using h

/-! ## Claim C5: shared-client authorize never writes `client:` keys -/

/-- For a shared client the authorize handler leaves the store untouched on
every path. -/
theorem authorizeGET_shared_store_eq (shared : List String)
    (dom : Option String) (storeOk : Bool) (req : AuthRequest) (store : Store)
    (cid : String) (h1 : req.clientId = some cid)
    (h2 : shared.contains cid = true) :
    (authorizeGET shared dom storeOk req store).2.1 = store := by
  unfold authorizeGET
  rw [h1]
  by_cases hc : cid = ""
  · simp [truthyStr, hc]
  · simp only [truthyStr, if_neg hc]
    cases ho : req.orgId with
    | none => rfl
    | some org =>
      by_cases horg : org = ""
      · simp [horg]
      · have h2' : cid ∈ shared := by simpa using h2
        cases dom with
        | none => simp [horg]
        | some d => simp [horg, h2']

/-- Claim C5: for every `/authorize` request whose client_id is in the
shared-client allow-list, the store restricted to `client:` keys is unchanged
by the request, for all org_id and state inputs. -/
theorem claim5_shared_no_client_write (shared : List String)
    (dom : Option String) (storeOk : Bool) (req : AuthRequest) (store : Store)
    (cid : String) (h1 : req.clientId = some cid)
    (h2 : shared.contains cid = true) :
    ∀ c, storeGet (authorizeGET shared dom storeOk req store).2.1 (clientKey c) =
      storeGet store (clientKey c) := by
  intro c
  rw [authorizeGET_shared_store_eq shared dom storeOk req store cid h1 h2]

/-- Witness for claim C5 at a concrete shared-client request. -/
theorem claim5_witness :
    storeGet (authorizeGET ["cliS"] (some "clerk.example") true
      ⟨some "cliS", some "org_1", some "st"⟩ []).2.1 (clientKey "cliS") =
      storeGet [] (clientKey "cliS") :=
  claim5_shared_no_client_write ["cliS"] (some "clerk.example") true
    ⟨some "cliS", some "org_1", some "st"⟩ [] "cliS" rfl (by decide) "cliS"

/-! ## Claim C10: state minted for shared clients without a state parameter -/

theorem b64Encode_cons_ne_nil (a : Byte) (l : ByteStr) :
    b64Encode (a :: l) ≠ [] := by
  match l with
  | [] => simp [b64Encode]
  | [b] => simp [b64Encode]
  | b :: c :: rest => simp [b64Encode]

theorem bytesToString_ne_empty (bs : ByteStr) (h : bs ≠ []) :
    bytesToString bs ≠ "" := by
  match bs with
  | [] => exact absurd rfl h
  | b :: rest =>
    intro hcontra
    have h2 := congrArg String.data hcontra
    simp [bytesToString] at h2

theorem encodeStateJson_ne_empty (csrfToken : Json) (org : ByteStr) :
    bytesToString (encodeStateJson csrfToken org) ≠ "" := by
  apply bytesToString_ne_empty
  unfold encodeStateJson printJson
  exact b64Encode_cons_ne_nil _ _

/-- Claim C10: a shared-client authorize request with an org selected but no
state parameter still redirects with a state parameter, namely the base64
JSON `{csrf: "", org_id: org}` minted with an empty CSRF value. -/
theorem claim10_minted_state (shared : List String) (dom : String)
    (storeOk : Bool) (store : Store) (cid org : String)
    (h0 : cid ≠ "") (h2 : shared.contains cid = true) (h4 : org ≠ "") :
    (authorizeGET shared (some dom) storeOk ⟨some cid, some org, none⟩ store).1 =
      .redirectClerk (some (bytesToString (encodeState [] (strToBytes org)))) := by
  unfold authorizeGET
  simp only [truthyStr, if_neg h0, if_neg h4, h2, if_true]
  simp [truthyStr, encodeStateJson_ne_empty, csrfFromState, encodeState]

/-- Witness for claim C10 at a concrete request. -/
theorem claim10_witness :
    (authorizeGET ["cliS"] (some "clerk.example") true
      ⟨some "cliS", some "org_1", none⟩ []).1 =
      .redirectClerk (some (bytesToString (encodeState [] (strToBytes "org_1")))) :=
  claim10_minted_state ["cliS"] "clerk.example" true [] "cliS" "org_1"
    (by decide) (by decide) (by decide)

/-! ## Reduction lemmas for the refresh-grant resolution path -/

theorem grant_refresh_ne_ac :
    (some "refresh_token" : Option String) ≠ some "authorization_code" := by
  decide

/-- With no direct org_id, a refresh-grant resolution reads the mapping and,
when it holds a non-empty org, returns it after re-arming the TTL — for both
shared and ephemeral clients. -/
theorem resolveOrgId_refresh_hit (shared : List String)
    (hash : String → String) (cid rt org : String) (store : Store)
    (hrt : rt ≠ "") (hmap : storeGet store (refreshKey hash rt) = some org)
    (horg : org ≠ "") :
    resolveOrgId shared hash true (some "refresh_token") cid none (some rt)
      store =
    (⟨some org, none⟩,
     storeExpire store (refreshKey hash rt) REFRESH_TOKEN_ORG_TTL_SECONDS,
     [Ev.storeGetEv (refreshKey hash rt),
      Ev.storeExpireEv (refreshKey hash rt) REFRESH_TOKEN_ORG_TTL_SECONDS]) := by
  by_cases hs : shared.contains cid <;>
    simp [resolveOrgId, hs, truthyStr, hrt, grant_refresh_ne_ac,
      getOrgIdForRefreshTokenSliding, hmap, horg]

/-- A refresh-grant resolution with an absent mapping returns `invalid_grant`
and leaves the store unchanged, provided no shared-client direct org_id
short-circuits it. -/
theorem resolveOrgId_refresh_miss (shared : List String)
    (hash : String → String) (cid rt : String) (dOrg : Option String)
    (store : Store) (hrt : rt ≠ "")
    (hmap : storeGet store (refreshKey hash rt) = none)
    (hd : shared.contains cid = false ∨ truthyStr dOrg = none) :
    ∃ desc,
      resolveOrgId shared hash true (some "refresh_token") cid dOrg (some rt)
        store =
      (⟨none, some ⟨"invalid_grant", desc, 400⟩⟩, store,
       [Ev.storeGetEv (refreshKey hash rt)]) := by
  by_cases hs : shared.contains cid
  · have hs' : cid ∈ shared := by simpa using hs
    rcases hd with hd | hd
    · rw [hs] at hd
      exact absurd hd (by decide)
    · refine ⟨"Missing organization context in refresh request. Please re-authorize.", ?_⟩
      cases dOrg with
      | none =>
        simp [resolveOrgId, hs', truthyStr, hrt,
          getOrgIdForRefreshTokenSliding, hmap]
      | some s =>
        have hsEmpty : s = "" := by
          by_contra hne
          simp [truthyStr, hne] at hd
        subst hsEmpty
        simp [resolveOrgId, hs', truthyStr, hrt,
          getOrgIdForRefreshTokenSliding, hmap]
  · have hs' : cid ∉ shared := by simpa using hs
    refine ⟨"Organization context expired for this refresh token. Please re-authorize.", ?_⟩
    simp [resolveOrgId, hs', truthyStr, hrt, grant_refresh_ne_ac,
      getOrgIdForRefreshTokenSliding, hmap]

/-! ## Claim C9: failed delete during rotation is swallowed -/

theorem refreshKey_ne_of_hash_ne (hash : String → String) (a b : String)
    (h : hash a ≠ hash b) : refreshKey hash a ≠ refreshKey hash b := by
  intro hcontra
  apply h
  have h2 := congrArg String.data hcontra
  simp only [refreshKey, String.data_append] at h2
  have h3 := List.append_cancel_left h2
  exact String.ext h3

/-- Claim C9: when the delete of the old `refresh:` mapping fails during
refresh-token rotation, the failure is swallowed — the handler still writes
the new mapping and returns 200, and afterwards both the old and the new
refresh-token hashes resolve to the org. -/
theorem claim9_delete_failure_swallowed (shared : List String)
    (hash : String → String) (dom : String) (store : Store)
    (cid rt rt2 jwt org tokAT tokTT : String) (tokExp : Nat)
    (hcid : cid ≠ "") (hrt : rt ≠ "") (hrt2 : rt2 ≠ "")
    (hmap : storeGet store (refreshKey hash rt) = some org) (horg : org ≠ "")
    (hkne : hash rt ≠ hash rt2) :
    (tokenPOST shared hash (some dom) ⟨false, true, false, false⟩
      ⟨some "application/x-www-form-urlencoded", some "refresh_token",
        some cid, none, some rt⟩
      ⟨true, ⟨tokAT, tokExp, some rt2, tokTT, some jwt⟩⟩ store).1.status = 200 ∧
    storeGet (tokenPOST shared hash (some dom) ⟨false, true, false, false⟩
      ⟨some "application/x-www-form-urlencoded", some "refresh_token",
        some cid, none, some rt⟩
      ⟨true, ⟨tokAT, tokExp, some rt2, tokTT, some jwt⟩⟩ store).2.1
      (refreshKey hash rt) = some org ∧
    storeGet (tokenPOST shared hash (some dom) ⟨false, true, false, false⟩
      ⟨some "application/x-www-form-urlencoded", some "refresh_token",
        some cid, none, some rt⟩
      ⟨true, ⟨tokAT, tokExp, some rt2, tokTT, some jwt⟩⟩ store).2.1
      (refreshKey hash rt2) = some org := by
  have hct : strIncludes "application/x-www-form-urlencoded"
      "application/x-www-form-urlencoded" = true := by decide
  have hpre : tokenPreResolve shared hash ⟨false, true, false, false⟩
      (some "refresh_token") cid none (some rt) store =
      Sum.inr (some org, some rt,
        storeExpire store (refreshKey hash rt) REFRESH_TOKEN_ORG_TTL_SECONDS,
        [Ev.storeGetEv (refreshKey hash rt),
         Ev.storeExpireEv (refreshKey hash rt)
           REFRESH_TOKEN_ORG_TTL_SECONDS]) := by
    simp [tokenPreResolve, truthyStr, hrt,
      resolveOrgId_refresh_hit shared hash cid rt org store hrt hmap horg, horg]
  have hkey := refreshKey_ne_of_hash_ne hash rt rt2 hkne
  simp only [tokenPOST, hct, truthyStr, if_neg hcid, hpre, tokenResolvePost,
    tokenFinish, tokenStep8, tokenStep9, grant_refresh_ne_ac,
    setOrgIdForRefreshToken, setOrgIdForJwt, deleteOrgIdForRefreshToken]
  simp [truthyStr, hrt2, hrt, horg, if_neg hcid, grant_refresh_ne_ac]
  refine ⟨?_, ?_⟩
  · rw [storeGet_setEx_ne _ _ _ _ _ (jwtKey_ne_refreshKey hash hash jwt rt).symm,
      storeGet_setEx_ne _ _ _ _ _ hkey, storeGet_expire]
    exact hmap
  · rw [storeGet_setEx_ne _ _ _ _ _ (jwtKey_ne_refreshKey hash hash jwt rt2).symm,
      storeGet_setEx_self]

/-- Witness for claim C9 at a concrete rotation. -/
theorem claim9_witness :
    (tokenPOST [] (fun s => s) (some "d") ⟨false, true, false, false⟩
      ⟨some "application/x-www-form-urlencoded", some "refresh_token",
        some "c1", none, some "R1"⟩
      ⟨true, ⟨"at", 3600, some "R2", "bearer", some "J"⟩⟩
      [("refresh:R1", "org1", 100)]).1.status = 200 ∧
    storeGet (tokenPOST [] (fun s => s) (some "d") ⟨false, true, false, false⟩
      ⟨some "application/x-www-form-urlencoded", some "refresh_token",
        some "c1", none, some "R1"⟩
      ⟨true, ⟨"at", 3600, some "R2", "bearer", some "J"⟩⟩
      [("refresh:R1", "org1", 100)]).2.1
      (refreshKey (fun s => s) "R1") = some "org1" ∧
    storeGet (tokenPOST [] (fun s => s) (some "d") ⟨false, true, false, false⟩
      ⟨some "application/x-www-form-urlencoded", some "refresh_token",
        some "c1", none, some "R1"⟩
      ⟨true, ⟨"at", 3600, some "R2", "bearer", some "J"⟩⟩
      [("refresh:R1", "org1", 100)]).2.1
      (refreshKey (fun s => s) "R2") = some "org1" :=
  claim9_delete_failure_swallowed [] (fun s => s) "d"
    [("refresh:R1", "org1", 100)] "c1" "R1" "R2" "J" "org1" "at" "bearer" 3600
    (by decide) (by decide) (by decide) (by decide) (by decide) (by decide)

/-! ## Claim C1: order of delete and write during refresh rotation -/

/-- Claim C1, counterexample: at a concrete successful refresh rotation the
handler's effect trace deletes the old `refresh:` mapping (index 3) strictly
before writing the new one (index 4) — the write never precedes the delete,
contradicting the claimed write-before-delete order. -/
theorem claim1_counterexample :
    (tokenPOST [] (fun s => s) (some "d") noFaults
      ⟨some "application/x-www-form-urlencoded", some "refresh_token",
        some "c1", none, some "R1"⟩
      ⟨true, ⟨"at", 3600, some "R2", "bearer", some "J"⟩⟩
      [("refresh:R1", "org1", 100)]).2.2 =
    [Ev.storeGetEv "refresh:R1",
     Ev.storeExpireEv "refresh:R1" REFRESH_TOKEN_ORG_TTL_SECONDS,
     Ev.upstreamCall,
     Ev.storeDelEv "refresh:R1",
     Ev.storeSetEv "refresh:R2" "org1" REFRESH_TOKEN_ORG_TTL_SECONDS,
     Ev.storeSetEv "jwt:J" "org1" 3600] := by
  decide

/-- Claim C1 (amended): in every successful refresh-token rotation (upstream
returns a refresh token, even one differing from the presented token), the
handler deletes the old `refresh:` mapping first and writes the new mapping
immediately afterwards — so there is a moment between the two at which
neither hash resolves. -/
theorem claim1_delete_precedes_write (shared : List String)
    (hash : String → String) (dom : String) (store : Store)
    (cid rt rt2 jwt org tokAT tokTT : String) (tokExp : Nat)
    (hcid : cid ≠ "") (hrt : rt ≠ "") (hrt2 : rt2 ≠ "") (_hdiff : rt2 ≠ rt)
    (hmap : storeGet store (refreshKey hash rt) = some org) (horg : org ≠ "") :
    (tokenPOST shared hash (some dom) noFaults
      ⟨some "application/x-www-form-urlencoded", some "refresh_token",
        some cid, none, some rt⟩
      ⟨true, ⟨tokAT, tokExp, some rt2, tokTT, some jwt⟩⟩ store).2.2 =
    [Ev.storeGetEv (refreshKey hash rt),
     Ev.storeExpireEv (refreshKey hash rt) REFRESH_TOKEN_ORG_TTL_SECONDS,
     Ev.upstreamCall,
     Ev.storeDelEv (refreshKey hash rt),
     Ev.storeSetEv (refreshKey hash rt2) org REFRESH_TOKEN_ORG_TTL_SECONDS,
     Ev.storeSetEv (jwtKey hash jwt) org tokExp] := by
  have hct : strIncludes "application/x-www-form-urlencoded"
      "application/x-www-form-urlencoded" = true := by decide
  have hpre : tokenPreResolve shared hash noFaults
      (some "refresh_token") cid none (some rt) store =
      Sum.inr (some org, some rt,
        storeExpire store (refreshKey hash rt) REFRESH_TOKEN_ORG_TTL_SECONDS,
        [Ev.storeGetEv (refreshKey hash rt),
         Ev.storeExpireEv (refreshKey hash rt)
           REFRESH_TOKEN_ORG_TTL_SECONDS]) := by
    simp [tokenPreResolve, truthyStr, hrt, noFaults,
      resolveOrgId_refresh_hit shared hash cid rt org store hrt hmap horg, horg]
  simp only [tokenPOST, hct, truthyStr, if_neg hcid]
  rw [hpre]
  simp only [tokenResolvePost, tokenFinish, tokenStep8, tokenStep9,
    grant_refresh_ne_ac, noFaults, setOrgIdForRefreshToken, setOrgIdForJwt,
    deleteOrgIdForRefreshToken]
  simp [truthyStr, hrt2, hrt, horg, grant_refresh_ne_ac]

/-- Witness for claim C1 at a concrete rotation. -/
theorem claim1_witness :
    (tokenPOST [] (fun s => s) (some "d") noFaults
      ⟨some "application/x-www-form-urlencoded", some "refresh_token",
        some "c9", none, some "RA"⟩
      ⟨true, ⟨"at", 60, some "RB", "bearer", some "JX"⟩⟩
      [("refresh:RA", "orgX", 4)]).2.2 =
    [Ev.storeGetEv (refreshKey (fun s => s) "RA"),
     Ev.storeExpireEv (refreshKey (fun s => s) "RA")
       REFRESH_TOKEN_ORG_TTL_SECONDS,
     Ev.upstreamCall,
     Ev.storeDelEv (refreshKey (fun s => s) "RA"),
     Ev.storeSetEv (refreshKey (fun s => s) "RB") "orgX"
       REFRESH_TOKEN_ORG_TTL_SECONDS,
     Ev.storeSetEv (jwtKey (fun s => s) "JX") "orgX" 60] :=
  claim1_delete_precedes_write [] (fun s => s) "d" [("refresh:RA", "orgX", 4)]
    "c9" "RA" "RB" "JX" "orgX" "at" "bearer" 60
    (by decide) (by decide) (by decide) (by decide) (by decide) (by decide)

/-! ## Claim C2: the `client:` mapping is never deleted at /token -/

/-- The sliding read changes no stored value. -/
theorem getSliding_values (hash : String → String) (rt : String) (ttl : Nat)
    (store : Store) :
    ∀ k, storeGet (getOrgIdForRefreshTokenSliding hash rt ttl store).2.1 k =
      storeGet store k := by
  intro k
  unfold getOrgIdForRefreshTokenSliding
  cases h : storeGet store (refreshKey hash rt) with
  | none => simp [h]
  | some v => by_cases hv : v = "" <;> simp [h, hv, storeGet_expire]

/-- `resolveOrgId` changes no stored value (its only store effect is the
TTL re-arm of the sliding read). -/
theorem resolveOrgId_values (shared : List String) (hash : String → String)
    (storeOk : Bool) (grantType : Option String) (cid : String)
    (dOrg refreshToken : Option String) (store : Store) :
    ∀ k, storeGet (resolveOrgId shared hash storeOk grantType cid dOrg
      refreshToken store).2.1 k = storeGet store k := by
  intro k
  by_cases hs : shared.contains cid
  · have hs' : cid ∈ shared := by simpa using hs
    cases hd : truthyStr dOrg with
    | some o => simp [resolveOrgId, hs', hd]
    | none =>
      cases hr : truthyStr refreshToken with
      | none => simp [resolveOrgId, hs', hd, hr]
      | some rt =>
        by_cases hg : grantType = some "refresh_token"
        · by_cases hok : storeOk
          · rcases hsl : getOrgIdForRefreshTokenSliding hash rt
              REFRESH_TOKEN_ORG_TTL_SECONDS store with ⟨o, s', e⟩
            have hv := getSliding_values hash rt
              REFRESH_TOKEN_ORG_TTL_SECONDS store k
            rw [hsl] at hv
            cases hto : truthyStr o <;>
              simp [resolveOrgId, hs', hd, hr, hg, hok, hsl, hto, hv]
          · simp [resolveOrgId, hs', hd, hr, hg, hok]
        · simp [resolveOrgId, hs', hd, hr, hg]
  · have hs' : cid ∉ shared := by simpa using hs
    by_cases hg : grantType = some "authorization_code"
    · by_cases hok : storeOk
      · cases hto : truthyStr (getOrgIdForClientId cid store).1 <;>
          simp [resolveOrgId, hs', hg, hok, hto]
      · simp [resolveOrgId, hs', hg, hok]
    · by_cases hg2 : grantType = some "refresh_token"
      · cases hr : truthyStr refreshToken with
        | none => simp [resolveOrgId, hs', hg, hg2, hr]
        | some rt =>
          by_cases hok : storeOk
          · rcases hsl : getOrgIdForRefreshTokenSliding hash rt
              REFRESH_TOKEN_ORG_TTL_SECONDS store with ⟨o, s', e⟩
            have hv := getSliding_values hash rt
              REFRESH_TOKEN_ORG_TTL_SECONDS store k
            rw [hsl] at hv
            cases hto : truthyStr o <;>
              simp [resolveOrgId, hs', hg, hg2, hr, hok, hsl, hto, hv]
          · simp [resolveOrgId, hs', hg, hg2, hr, hok]
      · simp [resolveOrgId, hs', hg, hg2]

def sumStorePre :
    Sum (TokenResponse × Store × List Ev)
      (Option String × Option String × Store × List Ev) → Store
  | .inl (_, s, _) => s
  | .inr (_, _, s, _) => s

theorem tokenPreResolve_values (shared : List String) (hash : String → String)
    (faults : StoreFaults) (grantType : Option String) (cid : String)
    (dOrg refreshToken : Option String) (store : Store) :
    ∀ k, storeGet (sumStorePre (tokenPreResolve shared hash faults grantType
      cid dOrg refreshToken store)) k = storeGet store k := by
  intro k
  by_cases hg : grantType = some "refresh_token"
  · subst hg
    cases hr : truthyStr refreshToken with
    | none => simp [tokenPreResolve, hr, sumStorePre]
    | some rt =>
      rcases hres : resolveOrgId shared hash (!faults.readFails)
        (some "refresh_token") cid dOrg (some rt) store with ⟨res, s1, e1⟩
      have hv := resolveOrgId_values shared hash (!faults.readFails)
        (some "refresh_token") cid dOrg (some rt) store k
      rw [hres] at hv
      cases he : res.error with
      | some e => simp [tokenPreResolve, hr, hres, he, sumStorePre, hv]
      | none =>
        cases hto : truthyStr res.orgId <;>
          simp [tokenPreResolve, hr, hres, he, hto, sumStorePre, hv]
  · simp [tokenPreResolve, hg, sumStorePre]

def sumStorePost :
    Sum (TokenResponse × Store × List Ev) (Option String × Store × List Ev) →
      Store
  | .inl (_, s, _) => s
  | .inr (_, s, _) => s

theorem tokenResolvePost_values (shared : List String)
    (hash : String → String) (faults : StoreFaults) (grantType : Option String)
    (cid : String) (dOrg resolvedOrgId : Option String) (store : Store) :
    ∀ k, storeGet (sumStorePost (tokenResolvePost shared hash faults grantType
      cid dOrg resolvedOrgId store)) k = storeGet store k := by
  intro k
  cases resolvedOrgId with
  | some o => simp [tokenResolvePost, sumStorePost]
  | none =>
    rcases hres : resolveOrgId shared hash (!faults.readFails) grantType cid
      dOrg none store with ⟨res, s2, e2⟩
    have hv := resolveOrgId_values shared hash (!faults.readFails) grantType
      cid dOrg none store k
    rw [hres] at hv
    cases he : res.error <;>
      simp [tokenResolvePost, hres, he, sumStorePost, hv]

/-- Step 8 never touches `client:` keys. -/
theorem tokenStep8_clientKeys (hash : String → String) (faults : StoreFaults)
    (grantType : Option String) (rtBody : Option String) (tok : ClerkTokens)
    (orgId : String) (store s8 : Store) (evs : List Ev)
    (h : tokenStep8 hash faults grantType rtBody tok orgId store =
      some (s8, evs)) :
    ∀ c, storeGet s8 (clientKey c) = storeGet store (clientKey c) := by
  intro c
  by_cases hac : grantType = some "authorization_code"
  · cases hrt : truthyStr tok.refreshToken with
    | some newRt =>
      by_cases hf : faults.setRefreshFails
      · simp [tokenStep8, hac, hrt, hf] at h
      · simp [tokenStep8, hac, hrt, hf, setOrgIdForRefreshToken] at h
        rw [← h.1, storeGet_setEx_ne _ _ _ _ _ (clientKey_ne_refreshKey c hash _)]
    | none =>
      simp [tokenStep8, hac, hrt] at h
      rw [← h.1]
  · by_cases hrf : grantType = some "refresh_token"
    · cases hrt : truthyStr tok.refreshToken with
      | some newRt =>
        cases hrb : truthyStr rtBody with
        | some oldRt =>
          by_cases hf : faults.setRefreshFails
          · simp [tokenStep8, hac, hrf, hrt, hrb, hf] at h
          · by_cases hd : faults.delRefreshFails
            · simp [tokenStep8, hac, hrf, hrt, hrb, hf, hd,
                setOrgIdForRefreshToken] at h
              rw [← h.1,
                storeGet_setEx_ne _ _ _ _ _ (clientKey_ne_refreshKey c hash _)]
            · simp [tokenStep8, hac, hrf, hrt, hrb, hf, hd,
                setOrgIdForRefreshToken, deleteOrgIdForRefreshToken] at h
              rw [← h.1,
                storeGet_setEx_ne _ _ _ _ _ (clientKey_ne_refreshKey c hash _),
                storeGet_del_ne _ _ _ (clientKey_ne_refreshKey c hash _)]
        | none =>
          by_cases hf : faults.setRefreshFails
          · simp [tokenStep8, hac, hrf, hrt, hrb, hf] at h
          · simp [tokenStep8, hac, hrf, hrt, hrb, hf,
              setOrgIdForRefreshToken] at h
            rw [← h.1,
              storeGet_setEx_ne _ _ _ _ _ (clientKey_ne_refreshKey c hash _)]
      | none =>
        simp [tokenStep8, hac, hrf, hrt] at h
        rw [← h.1]
    · simp [tokenStep8, hac, hrf] at h
      rw [← h.1]

/-- Step 9 never touches `client:` keys. -/
theorem tokenStep9_clientKeys (hash : String → String) (faults : StoreFaults)
    (finalJwt orgId : String) (expiresIn : Nat) (store s9 : Store)
    (evs : List Ev)
    (h : tokenStep9 hash faults finalJwt orgId expiresIn store =
      some (s9, evs)) :
    ∀ c, storeGet s9 (clientKey c) = storeGet store (clientKey c) := by
  intro c
  unfold tokenStep9 at h
  split at h
  · exact absurd h (by simp)
  · simp only [setOrgIdForJwt, Option.some.injEq, Prod.mk.injEq] at h
    rw [← h.1, storeGet_setEx_ne _ _ _ _ _ (clientKey_ne_jwtKey c hash _)]

/-- The post-exchange finish never touches `client:` keys. -/
theorem tokenFinish_clientKeys (hash : String → String) (faults : StoreFaults)
    (grantType : Option String) (rtBody : Option String) (tok : ClerkTokens)
    (orgId : String) (store : Store) :
    ∀ c, storeGet (tokenFinish hash faults grantType rtBody tok orgId
      store).2.1 (clientKey c) = storeGet store (clientKey c) := by
  intro c
  unfold tokenFinish
  split
  · rfl
  · rename_i fj ex heqSum
    rcases h8 : tokenStep8 hash faults grantType rtBody tok orgId store with
      _ | ⟨s8, e8⟩
    · simp [h8]
    · have hc8 := tokenStep8_clientKeys hash faults grantType rtBody tok orgId
        store s8 e8 h8 c
      rcases h9 : tokenStep9 hash faults fj orgId ex s8 with _ | ⟨s9, e9⟩
      · simp [h8, h9, hc8]
      · have hc9 := tokenStep9_clientKeys hash faults fj orgId ex s8 s9 e9 h9 c
        simp [h8, h9]
        exact hc9.trans hc8

/-- Claim C2 (amended): the `/token` handler never deletes (or otherwise
changes) any `client:` mapping, for any request, faults, upstream outcome and
store — in particular a consumed `client:` mapping survives a successful
authorization_code exchange, so a second exchange attempt still finds it. -/
theorem claim2_client_mapping_untouched (shared : List String)
    (hash : String → String) (dom : Option String) (faults : StoreFaults)
    (req : TokenRequest) (up : UpstreamResult) (store : Store) :
    ∀ c, storeGet (tokenPOST shared hash dom faults req up store).2.1
      (clientKey c) = storeGet store (clientKey c) := by
  intro c
  unfold tokenPOST
  split
  · rfl
  · split
    · rfl
    · split
      · rfl
      · split
        · rfl
        · rename_i clientId hcidEq
          rcases hpre : tokenPreResolve shared hash faults req.grantType
            clientId (truthyStr req.orgIdParam) req.refreshToken store with
            out | ⟨resolvedOrgId, rtBody, store1, evs1⟩
          · have hv := tokenPreResolve_values shared hash faults req.grantType
              clientId (truthyStr req.orgIdParam) req.refreshToken store
              (clientKey c)
            rw [hpre] at hv
            simp only [hpre]
            exact hv
          · have hv1 := tokenPreResolve_values shared hash faults req.grantType
              clientId (truthyStr req.orgIdParam) req.refreshToken store
              (clientKey c)
            rw [hpre] at hv1
            simp only [sumStorePre] at hv1
            simp only [hpre]
            split
            · exact hv1
            · rcases hpost : tokenResolvePost shared hash faults req.grantType
                clientId (truthyStr req.orgIdParam) resolvedOrgId store1 with
                ⟨resp, store2, evs2⟩ | ⟨orgIdOpt, store2, evs2⟩
              · have hv2 := tokenResolvePost_values shared hash faults
                  req.grantType clientId (truthyStr req.orgIdParam)
                  resolvedOrgId store1 (clientKey c)
                rw [hpost] at hv2
                simp only [sumStorePost] at hv2
                simp only [hpost]
                exact hv2.trans hv1
              · have hv2 := tokenResolvePost_values shared hash faults
                  req.grantType clientId (truthyStr req.orgIdParam)
                  resolvedOrgId store1 (clientKey c)
                rw [hpost] at hv2
                simp only [sumStorePost] at hv2
                simp only [hpost]
                split
                · exact hv2.trans hv1
                · exact (tokenFinish_clientKeys hash faults req.grantType
                    rtBody up.tokens _ store2 c).trans (hv2.trans hv1)

/-- Claim C2, counterexample: a concrete successful authorization_code
exchange by an ephemeral client leaves the consumed `client:` mapping in
place (and a second identical exchange succeeds again), instead of deleting
it before returning. -/
theorem claim2_counterexample :
    (tokenPOST [] (fun s => s) (some "d") noFaults
      ⟨some "application/x-www-form-urlencoded", some "authorization_code",
        some "eph", none, none⟩
      ⟨true, ⟨"at", 3600, none, "bearer", some "J"⟩⟩
      [("client:eph", "org7", 60)]).1.status = 200 ∧
    storeGet (tokenPOST [] (fun s => s) (some "d") noFaults
      ⟨some "application/x-www-form-urlencoded", some "authorization_code",
        some "eph", none, none⟩
      ⟨true, ⟨"at", 3600, none, "bearer", some "J"⟩⟩
      [("client:eph", "org7", 60)]).2.1 (clientKey "eph") = some "org7" ∧
    (tokenPOST [] (fun s => s) (some "d") noFaults
      ⟨some "application/x-www-form-urlencoded", some "authorization_code",
        some "eph", none, none⟩
      ⟨true, ⟨"at", 3600, none, "bearer", some "J"⟩⟩
      ((tokenPOST [] (fun s => s) (some "d") noFaults
        ⟨some "application/x-www-form-urlencoded", some "authorization_code",
          some "eph", none, none⟩
        ⟨true, ⟨"at", 3600, none, "bearer", some "J"⟩⟩
        [("client:eph", "org7", 60)]).2.1)).1.status = 200 := by
  refine ⟨by decide, by decide, by decide⟩

/-! ## Claim C3: source of the org context for refresh grants -/

/-- Claim C3, counterexample: a shared client presenting `org_id: "orgB"` in
the body of a refresh grant gets `"orgB"` as org context — persisted to the
`jwt:` and rotated `refresh:` mappings — even though the `refresh:` mapping
of the presented token says `"orgA"`; the request-body field, not the
refresh-token-hash mapping, determined the org. -/
theorem claim3_counterexample :
    (tokenPOST ["cliS"] (fun s => s) (some "d") noFaults
      ⟨some "application/x-www-form-urlencoded", some "refresh_token",
        some "cliS", some "orgB", some "R1"⟩
      ⟨true, ⟨"at", 3600, some "R2", "bearer", some "J"⟩⟩
      [("refresh:R1", "orgA", 100)]).1.status = 200 ∧
    storeGet (tokenPOST ["cliS"] (fun s => s) (some "d") noFaults
      ⟨some "application/x-www-form-urlencoded", some "refresh_token",
        some "cliS", some "orgB", some "R1"⟩
      ⟨true, ⟨"at", 3600, some "R2", "bearer", some "J"⟩⟩
      [("refresh:R1", "orgA", 100)]).2.1 "jwt:J" = some "orgB" ∧
    storeGet (tokenPOST ["cliS"] (fun s => s) (some "d") noFaults
      ⟨some "application/x-www-form-urlencoded", some "refresh_token",
        some "cliS", some "orgB", some "R1"⟩
      ⟨true, ⟨"at", 3600, some "R2", "bearer", some "J"⟩⟩
      [("refresh:R1", "orgA", 100)]).2.1 "refresh:R2" = some "orgB" ∧
    ("orgB" : String) ≠ "orgA" := by
  exact ⟨by decide, by decide, by decide, by decide⟩

/-- Claim C3 (amended): for an ephemeral client, the org context of a refresh
grant is exactly the value found under the presented token's `refresh:` hash
mapping — the `org_id` request-body field is ignored; for a shared client, a
truthy `org_id` request-body field takes precedence and the mapping is not
consulted. -/
theorem claim3_refresh_org_source (shared : List String)
    (hash : String → String) (storeOk : Bool) :
    (∀ cid dOrg rt store, shared.contains cid = false →
      resolveOrgId shared hash storeOk (some "refresh_token") cid dOrg
        (some rt) store =
      resolveOrgId shared hash storeOk (some "refresh_token") cid none
        (some rt) store) ∧
    (∀ cid dOrg rt store, shared.contains cid = false → rt ≠ "" →
      (resolveOrgId shared hash true (some "refresh_token") cid dOrg
        (some rt) store).1.orgId =
      truthyStr (storeGet store (refreshKey hash rt))) ∧
    (∀ cid o dOrg rt store, shared.contains cid = true →
      truthyStr dOrg = some o →
      (resolveOrgId shared hash storeOk (some "refresh_token") cid dOrg
        (some rt) store).1.orgId = some o) := by
  refine ⟨?_, ?_, ?_⟩
  · intro cid dOrg rt store hs
    have hs' : cid ∉ shared := by simpa using hs
    simp [resolveOrgId, hs', grant_refresh_ne_ac]
  · intro cid dOrg rt store hs hrt
    have hs' : cid ∉ shared := by simpa using hs
    cases hmap : storeGet store (refreshKey hash rt) with
    | none =>
      simp [resolveOrgId, hs', grant_refresh_ne_ac, truthyStr, hrt,
        getOrgIdForRefreshTokenSliding, hmap]
    | some v =>
      by_cases hv : v = "" <;>
        simp [resolveOrgId, hs', grant_refresh_ne_ac, truthyStr, hrt,
          getOrgIdForRefreshTokenSliding, hmap, hv]
  · intro cid o dOrg rt store hs hd
    have hs' : cid ∈ shared := by simpa using hs
    simp [resolveOrgId, hs', hd]

/-- Witness for claim C3: for an ephemeral client, a body `org_id` of
`"orgB"` does not override the mapping value `"orgA"`. -/
theorem claim3_witness :
    (resolveOrgId [] (fun s => s) true (some "refresh_token") "eph"
      (some "orgB") (some "R1") [("refresh:R1", "orgA", 9)]).1.orgId =
    truthyStr (storeGet [("refresh:R1", "orgA", 9)]
      (refreshKey (fun s => s) "R1")) :=
  (claim3_refresh_org_source [] (fun s => s) true).2.1 "eph" (some "orgB")
    "R1" [("refresh:R1", "orgA", 9)] (by decide) (by decide)

/-! ## Claim C6: absent org mapping yields invalid_grant, resolved early -/

theorem grant_ac_ne_refresh :
    (some "authorization_code" : Option String) ≠ some "refresh_token" := by
  decide

/-- An ephemeral authorization_code resolution with an absent `client:`
mapping returns `invalid_grant` with the store unchanged. -/
theorem resolveOrgId_ac_miss (shared : List String) (hash : String → String)
    (cid : String) (dOrg : Option String) (store : Store)
    (hs : shared.contains cid = false)
    (hmap : storeGet store (clientKey cid) = none) :
    resolveOrgId shared hash true (some "authorization_code") cid dOrg none
      store =
    (⟨none, some ⟨"invalid_grant",
      "Organization context expired for client: " ++ cid ++
        ". Please re-authorize to select your organization.", 400⟩⟩, store,
     [Ev.storeGetEv (clientKey cid)]) := by
  have hs' : cid ∉ shared := by simpa using hs
  simp [resolveOrgId, hs', getOrgIdForClientId, hmap, truthyStr]

/-- Claim C6, counterexample: a refresh-grant exchange whose `refresh:`
mapping is absent (store reachable, here empty) does not always yield
`invalid_grant` — a shared client carrying `org_id` in the body succeeds
with 200. -/
theorem claim6_counterexample :
    storeGet ([] : Store) (refreshKey (fun s => s) "R1") = none ∧
    (tokenPOST ["cliS"] (fun s => s) (some "d") noFaults
      ⟨some "application/x-www-form-urlencoded", some "refresh_token",
        some "cliS", some "orgB", some "R1"⟩
      ⟨true, ⟨"at", 3600, some "R2", "bearer", some "J"⟩⟩ []).1.status = 200 ∧
    (tokenPOST ["cliS"] (fun s => s) (some "d") noFaults
      ⟨some "application/x-www-form-urlencoded", some "refresh_token",
        some "cliS", some "orgB", some "R1"⟩
      ⟨true, ⟨"at", 3600, some "R2", "bearer", some "J"⟩⟩ []).1.error =
      none := by
  exact ⟨by decide, by decide, by decide⟩

theorem truthyStr_some_ne (s : String) (h : s ≠ "") :
    truthyStr (some s) = some s := by
  simp [truthyStr, h]

/-- Claim C6 (amended): with the store reachable, an absent org mapping makes
the exchange fail with `invalid_grant` (status 400), never `server_error`:
(a) for an ephemeral authorization_code grant whose `client:` mapping is
absent, whatever the upstream outcome; (b) for a refresh_token grant whose
`refresh:` mapping is absent — unless a shared client supplies a truthy
`org_id` in the body, in which case the mapping is not needed — and in case
(b) the handler never calls the upstream endpoint at all. -/
theorem claim6_missing_mapping (shared : List String)
    (hash : String → String) (dom : String) :
    (∀ (faults : StoreFaults) (req : TokenRequest) (up : UpstreamResult)
      (store : Store) (cid : String),
      faults.readFails = false →
      req.contentType = some "application/x-www-form-urlencoded" →
      req.grantType = some "authorization_code" →
      req.clientId = some cid → cid ≠ "" →
      shared.contains cid = false →
      storeGet store (clientKey cid) = none →
      (tokenPOST shared hash (some dom) faults req up store).1.error =
        some "invalid_grant" ∧
      (tokenPOST shared hash (some dom) faults req up store).1.status = 400) ∧
    (∀ (faults : StoreFaults) (req : TokenRequest) (up : UpstreamResult)
      (store : Store) (cid rt : String),
      faults.readFails = false →
      req.contentType = some "application/x-www-form-urlencoded" →
      req.grantType = some "refresh_token" →
      req.clientId = some cid → cid ≠ "" →
      req.refreshToken = some rt → rt ≠ "" →
      storeGet store (refreshKey hash rt) = none →
      (shared.contains cid = false ∨ truthyStr req.orgIdParam = none) →
      (tokenPOST shared hash (some dom) faults req up store).1.error =
        some "invalid_grant" ∧
      (tokenPOST shared hash (some dom) faults req up store).1.status = 400 ∧
      Ev.upstreamCall ∉ (tokenPOST shared hash (some dom) faults req up
        store).2.2) := by
  have hct : strIncludes "application/x-www-form-urlencoded"
      "application/x-www-form-urlencoded" = true := by decide
  constructor
  · intro faults req up store cid hrf hc hg hci hcid hs hmap
    have hpre : tokenPreResolve shared hash faults req.grantType cid
        (truthyStr req.orgIdParam) req.refreshToken store =
        Sum.inr (none, none, store, []) := by
      simp [tokenPreResolve, hg, grant_ac_ne_refresh]
    have hres : resolveOrgId shared hash (!faults.readFails) req.grantType cid
        (truthyStr req.orgIdParam) none store =
        (⟨none, some ⟨"invalid_grant",
          "Organization context expired for client: " ++ cid ++
            ". Please re-authorize to select your organization.", 400⟩⟩,
         store, [Ev.storeGetEv (clientKey cid)]) := by
      rw [hg, hrf]
      exact resolveOrgId_ac_miss shared hash cid (truthyStr req.orgIdParam)
        store hs hmap
    cases hok : up.ok
    · simp [tokenPOST, hc, hct, hci, truthyStr_some_ne cid hcid, hpre, hok,
        tokenErr]
    · simp [tokenPOST, hc, hct, hci, truthyStr_some_ne cid hcid, hpre, hok,
        tokenResolvePost, hres, errToTokenResponse]
  · intro faults req up store cid rt hrf hc hg hci hcid hrt hrtne hmap hd
    have hd' : shared.contains cid = false ∨
        truthyStr (truthyStr req.orgIdParam) = none := by
      rcases hd with hd | hd
      · exact Or.inl hd
      · exact Or.inr (by rw [hd]; rfl)
    obtain ⟨desc, hres⟩ := resolveOrgId_refresh_miss shared hash cid rt
      (truthyStr req.orgIdParam) store hrtne hmap hd'
    have hpre : tokenPreResolve shared hash faults req.grantType cid
        (truthyStr req.orgIdParam) req.refreshToken store =
        Sum.inl (⟨400, some "invalid_grant", none, none, none⟩, store,
          [Ev.storeGetEv (refreshKey hash rt)]) := by
      rw [hg, hrt]
      simp only [tokenPreResolve, if_pos rfl, truthyStr_some_ne rt hrtne]
      rw [hrf]
      simp [hres, errToTokenResponse]
    refine ⟨?_, ?_, ?_⟩ <;>
      simp [tokenPOST, hc, hct, hci, truthyStr_some_ne cid hcid, hpre]

/-- Witness for claim C6: concrete ephemeral refresh exchange with an absent
mapping fails with invalid_grant and never reaches upstream. -/
theorem claim6_witness :
    (tokenPOST [] (fun s => s) (some "d") noFaults
      ⟨some "application/x-www-form-urlencoded", some "refresh_token",
        some "eph", none, some "R1"⟩
      ⟨true, ⟨"at", 3600, some "R2", "bearer", some "J"⟩⟩ []).1.error =
      some "invalid_grant" ∧
    (tokenPOST [] (fun s => s) (some "d") noFaults
      ⟨some "application/x-www-form-urlencoded", some "refresh_token",
        some "eph", none, some "R1"⟩
      ⟨true, ⟨"at", 3600, some "R2", "bearer", some "J"⟩⟩ []).1.status = 400 ∧
    Ev.upstreamCall ∉ (tokenPOST [] (fun s => s) (some "d") noFaults
      ⟨some "application/x-www-form-urlencoded", some "refresh_token",
        some "eph", none, some "R1"⟩
      ⟨true, ⟨"at", 3600, some "R2", "bearer", some "J"⟩⟩ []).2.2 :=
  (claim6_missing_mapping [] (fun s => s) "d").2 noFaults
    ⟨some "application/x-www-form-urlencoded", some "refresh_token",
      some "eph", none, some "R1"⟩
    ⟨true, ⟨"at", 3600, some "R2", "bearer", some "J"⟩⟩ [] "eph" "R1"
    rfl rfl rfl rfl (by decide) rfl (by decide) (by decide) (Or.inl rfl)

/-! ## Claim C4: StateCodec round trip and fallback -/

theorem decChar_encChar : ∀ v : Fin 64, decChar (encChar v) = some v := by
  decide

theorem decChar_pad : decChar (byt 61) = none := by decide

theorem b64_roundtrip (bs : ByteStr) : b64Decode (b64Encode bs) = bs := by
  have H : ∀ n bs, List.length bs ≤ n → b64Decode (b64Encode bs) = bs := by
    intro n
    induction n with
    | zero =>
      intro bs h
      rcases bs with _ | ⟨a, t⟩
      · rfl
      · simp at h
    | succ n ih =>
      intro bs h
      rcases bs with _ | ⟨a, _ | ⟨b, _ | ⟨c, rest⟩⟩⟩
      · rfl
      · have ha := a.isLt
        simp [b64Encode, b64Decode, List.filterMap_cons, decChar_encChar,
          decChar_pad, b64Regroup, byt, six, Fin.ext_iff]
        omega
      · have ha := a.isLt
        have hb := b.isLt
        simp [b64Encode, b64Decode, List.filterMap_cons, decChar_encChar,
          decChar_pad, b64Regroup, byt, six, Fin.ext_iff]
        omega
      · have ha := a.isLt
        have hb := b.isLt
        have hc := c.isLt
        have hrest := ih rest (by simp at h; omega)
        simp only [b64Decode] at hrest
        simp [b64Encode, b64Decode, List.filterMap_cons, decChar_encChar,
          decChar_pad, b64Regroup, hrest, byt, six, Fin.ext_iff]
        omega
  exact H bs.length bs le_rfl

theorem hexVal_hexDigit : ∀ n : Fin 16, hexVal (hexDigit n.val) = some n.val := by
  decide

theorem byt_val (n : Nat) : (byt n).val = n % 256 := rfl

theorem lexStrF_quote (f : Nat) (X : ByteStr) :
    lexStrF (f + 1) (byt 34 :: X) = some ([], X) := rfl

theorem lexStrF_esc34 (f : Nat) (X : ByteStr) :
    lexStrF (f + 1) (byt 92 :: byt 34 :: X) =
      (lexStrF f X).map (fun r => (byt 34 :: r.1, r.2)) := rfl

theorem lexStrF_esc92 (f : Nat) (X : ByteStr) :
    lexStrF (f + 1) (byt 92 :: byt 92 :: X) =
      (lexStrF f X).map (fun r => (byt 92 :: r.1, r.2)) := rfl

theorem lexStrF_esc98 (f : Nat) (X : ByteStr) :
    lexStrF (f + 1) (byt 92 :: byt 98 :: X) =
      (lexStrF f X).map (fun r => (byt 8 :: r.1, r.2)) := rfl

theorem lexStrF_esc102 (f : Nat) (X : ByteStr) :
    lexStrF (f + 1) (byt 92 :: byt 102 :: X) =
      (lexStrF f X).map (fun r => (byt 12 :: r.1, r.2)) := rfl

theorem lexStrF_esc110 (f : Nat) (X : ByteStr) :
    lexStrF (f + 1) (byt 92 :: byt 110 :: X) =
      (lexStrF f X).map (fun r => (byt 10 :: r.1, r.2)) := rfl

theorem lexStrF_esc114 (f : Nat) (X : ByteStr) :
    lexStrF (f + 1) (byt 92 :: byt 114 :: X) =
      (lexStrF f X).map (fun r => (byt 13 :: r.1, r.2)) := rfl

theorem lexStrF_esc116 (f : Nat) (X : ByteStr) :
    lexStrF (f + 1) (byt 92 :: byt 116 :: X) =
      (lexStrF f X).map (fun r => (byt 9 :: r.1, r.2)) := rfl

theorem lexStrF_escU (f : Nat) (h1 h2 h3 h4 : Byte) (v1 v2 v3 v4 : Nat)
    (X : ByteStr) (e1 : hexVal h1 = some v1) (e2 : hexVal h2 = some v2)
    (e3 : hexVal h3 = some v3) (e4 : hexVal h4 = some v4) :
    lexStrF (f + 1) (byt 92 :: byt 117 :: h1 :: h2 :: h3 :: h4 :: X) =
      (lexStrF f X).map
        (fun r => (byt (v1 * 4096 + v2 * 256 + v3 * 16 + v4) :: r.1, r.2)) := by
  simp [lexStrF, byt_val, e1, e2, e3, e4]

theorem lexStrF_plain (f : Nat) (b : Byte) (hne34 : ¬ b.val = 34)
    (hne92 : ¬ b.val = 92) (hge : ¬ b.val < 32) (X : ByteStr) :
    lexStrF (f + 1) (b :: X) = (lexStrF f X).map (fun r => (b :: r.1, r.2)) := by
  simp only [lexStrF, if_neg hne34, if_neg hne92, if_neg hge]

/-- Unescaping inverts `JSON.stringify` escaping, given enough fuel. -/
theorem lexStrF_escape : ∀ (f : Nat) (s rest : ByteStr), s.length < f →
    lexStrF f (escapeBytes s ++ byt 34 :: rest) = some (s, rest) := by
  intro f
  induction f with
  | zero => intro s rest h; omega
  | succ f ih =>
    intro s rest h
    cases s with
    | nil => exact lexStrF_quote f rest
    | cons b tail =>
      have hlen : tail.length < f := by simp at h; omega
      have ihd := ih tail rest hlen
      have hb256 := b.isLt
      have hbyt : byt b.val = b := Fin.ext (by simp [byt, Nat.mod_eq_of_lt hb256])
      by_cases h34 : b.val = 34
      · have hb : b = byt 34 := by rw [← hbyt, h34]
        rw [hb, show escapeBytes (byt 34 :: tail) ++ byt 34 :: rest =
          byt 92 :: byt 34 :: (escapeBytes tail ++ byt 34 :: rest) from
            by simp [escapeBytes, escapeByte, byt_val], lexStrF_esc34, ihd]
        rfl
      · by_cases h92 : b.val = 92
        · have hb : b = byt 92 := by rw [← hbyt, h92]
          rw [hb, show escapeBytes (byt 92 :: tail) ++ byt 34 :: rest =
            byt 92 :: byt 92 :: (escapeBytes tail ++ byt 34 :: rest) from
              by simp [escapeBytes, escapeByte, byt_val], lexStrF_esc92, ihd]
          rfl
        · by_cases h8 : b.val = 8
          · have hb : b = byt 8 := by rw [← hbyt, h8]
            rw [hb, show escapeBytes (byt 8 :: tail) ++ byt 34 :: rest =
              byt 92 :: byt 98 :: (escapeBytes tail ++ byt 34 :: rest) from
                by simp [escapeBytes, escapeByte, byt_val], lexStrF_esc98, ihd]
            rfl
          · by_cases h9 : b.val = 9
            · have hb : b = byt 9 := by rw [← hbyt, h9]
              rw [hb, show escapeBytes (byt 9 :: tail) ++ byt 34 :: rest =
                byt 92 :: byt 116 :: (escapeBytes tail ++ byt 34 :: rest) from
                  by simp [escapeBytes, escapeByte, byt_val], lexStrF_esc116, ihd]
              rfl
            · by_cases h10 : b.val = 10
              · have hb : b = byt 10 := by rw [← hbyt, h10]
                rw [hb, show escapeBytes (byt 10 :: tail) ++ byt 34 :: rest =
                  byt 92 :: byt 110 :: (escapeBytes tail ++ byt 34 :: rest) from
                    by simp [escapeBytes, escapeByte, byt_val], lexStrF_esc110, ihd]
                rfl
              · by_cases h12 : b.val = 12
                · have hb : b = byt 12 := by rw [← hbyt, h12]
                  rw [hb, show escapeBytes (byt 12 :: tail) ++ byt 34 :: rest =
                    byt 92 :: byt 102 :: (escapeBytes tail ++ byt 34 :: rest) from
                      by simp [escapeBytes, escapeByte, byt_val], lexStrF_esc102, ihd]
                  rfl
                · by_cases h13 : b.val = 13
                  · have hb : b = byt 13 := by rw [← hbyt, h13]
                    rw [hb, show escapeBytes (byt 13 :: tail) ++ byt 34 :: rest =
                      byt 92 :: byt 114 :: (escapeBytes tail ++ byt 34 :: rest) from
                        by simp [escapeBytes, escapeByte, byt_val], lexStrF_esc114, ihd]
                    rfl
                  · by_cases hctl : b.val < 32
                    · have hesc : escapeBytes (b :: tail) ++ byt 34 :: rest =
                        byt 92 :: byt 117 :: byt 48 :: byt 48 ::
                          hexDigit (b.val / 16) :: hexDigit (b.val % 16) ::
                          (escapeBytes tail ++ byt 34 :: rest) := by
                        simp [escapeBytes, escapeByte, h34, h92, h8, h9, h10,
                          h12, h13, hctl]
                      have hhi := hexVal_hexDigit ⟨b.val / 16, by omega⟩
                      have hlo := hexVal_hexDigit ⟨b.val % 16, by omega⟩
                      simp only [Fin.val_mk] at hhi hlo
                      have h48 : hexVal (byt 48) = some 0 := by decide
                      rw [hesc, lexStrF_escU f _ _ _ _ 0 0 (b.val / 16)
                        (b.val % 16) _ h48 h48 hhi hlo, ihd]
                      have : (0 : Nat) * 4096 + 0 * 256 + b.val / 16 * 16 +
                          b.val % 16 = b.val := by omega
                      rw [this, hbyt]
                      rfl
                    · have hesc : escapeBytes (b :: tail) ++ byt 34 :: rest =
                        b :: (escapeBytes tail ++ byt 34 :: rest) := by
                        simp [escapeBytes, escapeByte, h34, h92, h8, h9, h10,
                          h12, h13, hctl]
                      rw [hesc, lexStrF_plain f b h34 h92 hctl, ihd]
                      rfl

theorem escapeByte_length_pos (b : Byte) : 1 ≤ (escapeByte b).length := by
  unfold escapeByte
  split_ifs <;> simp

theorem length_le_escapeBytes (s : ByteStr) :
    s.length ≤ (escapeBytes s).length := by
  induction s with
  | nil => simp [escapeBytes]
  | cons b tail ih =>
    have := escapeByte_length_pos b
    simp only [escapeBytes, List.flatMap_cons, List.length_append,
      List.length_cons]
    simp only [escapeBytes] at ih
    omega

/-- Unescaping inverts `JSON.stringify` escaping: lexing a string body made of
`escapeBytes s` followed by a closing quote yields exactly `s`. -/
theorem lexStr_escape (s : ByteStr) (rest : ByteStr) :
    lexStr (escapeBytes s ++ byt 34 :: rest) = some (s, rest) := by
  unfold lexStr
  apply lexStrF_escape
  have := length_le_escapeBytes s
  simp only [List.length_append, List.length_cons]
  omega

/-- The printed two-field state object, in right-nested list form. -/
theorem printed_state_shape (csrf org : ByteStr) :
    printJson (Json.obj [(csrfKey, Json.str csrf), (orgIdKey, Json.str org)]) =
      byt 123 :: byt 34 :: (escapeBytes csrfKey ++ byt 34 :: byt 58 :: byt 34 ::
        (escapeBytes csrf ++ byt 34 :: byt 44 :: byt 34 ::
          (escapeBytes orgIdKey ++ byt 34 :: byt 58 :: byt 34 ::
            (escapeBytes org ++ byt 34 :: byt 125 :: [])))) := by
  simp [printJson, printJsonFields, printStr]

/-- Parsing the printed state object succeeds with six units of fuel to
spare. -/
theorem parseVal_printed (m : Nat) (csrf org : ByteStr) :
    parseVal (m + 6)
      (printJson (Json.obj [(csrfKey, Json.str csrf), (orgIdKey, Json.str org)])) =
      some (Json.obj [(csrfKey, Json.str csrf), (orgIdKey, Json.str org)], []) := by
  rw [printed_state_shape]
  rw [show m + 6 = m + 5 + 1 from rfl]
  simp [parseVal, skipWs, isWsByte, byt_val]
  rw [show m + 5 = m + 4 + 1 from rfl]
  simp [parseObjBody, skipWs, isWsByte, byt_val]
  rw [show m + 4 = m + 3 + 1 from rfl]
  simp [parseMembers, skipWs, isWsByte, byt_val, lexStr_escape]
  rw [show m + 3 = m + 2 + 1 from rfl]
  simp [parseVal, skipWs, isWsByte, byt_val, lexStr_escape]

/-- `JSON.parse` accepts the printed state object. -/
theorem jsonParse_printed (csrf org : ByteStr) :
    jsonParse (printJson (Json.obj [(csrfKey, Json.str csrf),
      (orgIdKey, Json.str org)])) =
      some (Json.obj [(csrfKey, Json.str csrf), (orgIdKey, Json.str org)]) := by
  unfold jsonParse
  have hlen : 5 ≤ (printJson (Json.obj [(csrfKey, Json.str csrf),
      (orgIdKey, Json.str org)])).length := by
    rw [printed_state_shape]
    simp
    omega
  obtain ⟨m, hm⟩ : ∃ m, (printJson (Json.obj [(csrfKey, Json.str csrf),
      (orgIdKey, Json.str org)])).length + 1 = m + 6 :=
    ⟨(printJson (Json.obj [(csrfKey, Json.str csrf),
      (orgIdKey, Json.str org)])).length - 5, by omega⟩
  rw [hm, parseVal_printed]
  simp [skipWs]

/-- Property access on the parsed state object. -/
theorem getField_state (csrf org : ByteStr) :
    getField (Json.obj [(csrfKey, Json.str csrf), (orgIdKey, Json.str org)])
      csrfKey = some (Json.str csrf) := by
  have h1 : (decide (orgIdKey = csrfKey)) = false := by decide
  simp [getField, List.find?, h1]

/-- Decoding an encoded state with a non-empty CSRF recovers that CSRF. -/
theorem decodeCsrf_encodeState (csrf org : ByteStr) (h : csrf ≠ []) :
    decodeCsrf (encodeState csrf org) = Json.str csrf := by
  unfold decodeCsrf encodeState encodeStateJson
  rw [b64_roundtrip, jsonParse_printed]
  simp [getField_state, jsTruthy, h]

/-- Claim C4, counterexample: for the empty CSRF string the decode side of
the codec does not recover the encoded pair — `{csrf: ""}` is falsy in JS, so
the route falls back to treating the whole raw base64 input as the CSRF
value. -/
theorem claim4_counterexample :
    decodeCsrf (encodeState [] [byt 111]) =
      Json.str (encodeState [] [byt 111]) ∧
    decodeCsrf (encodeState [] [byt 111]) ≠ Json.str [] := by
  refine ⟨rfl, fun h => ?_⟩
  rw [show decodeCsrf (encodeState [] [byt 111]) =
    Json.str (encodeState [] [byt 111]) from rfl] at h
  simp only [Json.str.injEq] at h
  exact absurd h (by decide)

/-- Claim C4 (amended): for every non-empty csrf and every org_id, decoding
the encoded state recovers exactly the pair — the parse yields the two-field
object and the route's csrf extraction returns the original csrf; and for
every input that is not base64-encoded JSON, or parses to a value without a
`csrf` field, decode yields the entire raw input as the csrf value. -/
theorem claim4_codec :
    (∀ csrf org : ByteStr, csrf ≠ [] →
      decodeCsrf (encodeState csrf org) = Json.str csrf ∧
      jsonParse (b64Decode (encodeState csrf org)) =
        some (Json.obj [(csrfKey, Json.str csrf), (orgIdKey, Json.str org)])) ∧
    (∀ raw : ByteStr, jsonParse (b64Decode raw) = none →
      decodeCsrf raw = Json.str raw) ∧
    (∀ (raw : ByteStr) (v : Json), jsonParse (b64Decode raw) = some v →
      getField v csrfKey = none → decodeCsrf raw = Json.str raw) := by
  refine ⟨?_, ?_, ?_⟩
  · intro csrf org h
    refine ⟨decodeCsrf_encodeState csrf org h, ?_⟩
    unfold encodeState encodeStateJson
    rw [b64_roundtrip, jsonParse_printed]
  · intro raw hparse
    simp [decodeCsrf, hparse]
  · intro raw v hparse hfield
    simp [decodeCsrf, hparse, hfield]

/-- Witness for claim C4: the codec recovers the pair (`"t"`, `"o"`). -/
theorem claim4_witness :
    decodeCsrf (encodeState [byt 116] [byt 111]) = Json.str [byt 116] ∧
    jsonParse (b64Decode (encodeState [byt 116] [byt 111])) =
      some (Json.obj [(csrfKey, Json.str [byt 116]),
        (orgIdKey, Json.str [byt 111])]) :=
  claim4_codec.1 [byt 116] [byt 111] (by decide)

end KernelMcp
